import Mathlib

/-!
# Verification of the Debt Payoff Planning Engine

Shallow embedding of the debt payoff planning engine of the budget-balancer
repository (`src-tauri/src/services/avalanche_calculator.rs`,
`src-tauri/src/services/snowball_calculator.rs`,
`src-tauri/src/services/interest_calculator.rs`,
`src-tauri/src/commands/debt_commands.rs`), with theorems settling the
specification claims about it.

Modelling conventions:
* Rust `f64` money amounts are modelled as exact rationals `ℚ`; the source's
  literal `0.01` zero-balance threshold becomes `threshold = 1/100`.
* The Rust loop bodies of the two calculators are line-for-line identical
  except that the snowball one re-sorts the working set at the top of each
  month; the embedding factors the shared body into `processMonth`/`simLoop`
  with a `sortMonthly` flag, exactly as the spec's §9 observes.
* Rust's stable `sort_by` is embedded as `List.insertionSort` (a stable sort);
  for a total transitive comparator the stable sorted permutation is unique.
* The source reads the wall clock (`chrono::Local::now().date_naive()`) inside
  the calculator; the embedding makes that clock read an explicit `start_date`
  argument (a day number `ℤ`), and models each month's formatted date string
  by the day number `start_date + 30 * (month - 1)`.
* The Rust `while` loop increments `month` and bails out once
  `month > MAX_PAYOFF_YEARS * MONTHS_PER_YEAR`; the embedding runs the same
  `month` counter and the same bail-out test, with a structural fuel argument
  (initialised so that it outlasts the bail-out test) to make the recursion
  well-founded by construction.
-/

/- Batteries marks the `Rat` arithmetic operations `@[irreducible]`, which
blocks `decide`-style evaluation of concrete runs; restore the default
reducibility locally (the kernel ignores reducibility attributes, so proofs
are unaffected — this only lets elaboration evaluate concrete rationals). -/
attribute [local semireducible] Rat.add Rat.sub Rat.mul Rat.inv Rat.ofScientific

deriving instance DecidableEq for Except

namespace BudgetBalancer

/-! ## Constants (`src-tauri/src/constants.rs`) -/

def PERCENT_TO_DECIMAL_DIVISOR : ℚ := 100

def MONTHS_PER_YEAR : ℚ := 12

def MAX_PAYOFF_YEARS : ℕ := 100

/-- `MAX_PAYOFF_YEARS * MONTHS_PER_YEAR as i32` from the loop bail-out test. -/
def MAX_PAYOFF_MONTHS : ℕ := 1200

/-- The source's literal `0.01` zero-balance threshold. -/
def threshold : ℚ := 1 / 100

/-! ## Data model (`models/debt.rs`, `errors.rs`, `avalanche_calculator.rs`) -/

/-- The fields of `Debt` that the engine reads (the other fields,
`original_balance` and the two timestamps, never influence the engine). -/
structure Debt where
  id : Int
  name : String
  balance : ℚ
  interest_rate : ℚ
  min_payment : ℚ
deriving DecidableEq, Repr

/-- The `DebtError` variants produced on the payoff-planning path. -/
inductive DebtError where
  | NoDebts
  | InsufficientFunds (monthly : ℚ) (min_payments : ℚ)
  | InvalidStrategy (given : String)
  | PayoffExceeded (years : ℕ)
deriving DecidableEq, Repr

structure DebtPaymentDetail where
  debt_id : Int
  debt_name : String
  amount : ℚ
deriving DecidableEq, Repr

/-- `MonthlyPayment`; the formatted date string is modelled as a day number. -/
structure MonthlyPayment where
  month : ℕ
  date : Int
  payments : List DebtPaymentDetail
  total_paid : ℚ
  remaining_balance : ℚ
deriving DecidableEq, Repr

structure DebtSummary where
  debt_id : Int
  debt_name : String
  payoff_month : ℕ
  total_interest_paid : ℚ
deriving DecidableEq, Repr

structure PayoffPlan where
  strategy : String
  payoff_date : Int
  total_interest : ℚ
  monthly_breakdown : List MonthlyPayment
  debt_summaries : List DebtSummary
deriving DecidableEq, Repr

/-- The calculators' internal mutable working state for one debt. -/
structure DebtState where
  id : Int
  name : String
  balance : ℚ
  interest_rate : ℚ
  min_payment : ℚ
  total_interest_paid : ℚ
  payoff_month : Option ℕ
deriving DecidableEq, Repr

/-! ## Interest primitive (`services/interest_calculator.rs`) -/

/-- `calculate_monthly_interest(balance, annual_rate)`. -/
def calculate_monthly_interest (balance annual_rate : ℚ) : ℚ :=
  if balance ≤ 0 ∨ annual_rate < 0 then 0
  else balance * (annual_rate / 100 / 12)

/-! ## The shared simulation body

Both calculators build their working set with the same initialiser, apply
interest, pay minimums, and allocate the surplus with literally identical
code; the embedding shares those definitions. -/

def initState (d : Debt) : DebtState :=
  { id := d.id, name := d.name, balance := d.balance,
    interest_rate := d.interest_rate, min_payment := d.min_payment,
    total_interest_paid := 0, payoff_month := none }

def initStates (debts : List Debt) : List DebtState := debts.map initState

/-- Interest accrual: for every debt with balance above the threshold, add
`balance * (interest_rate / 100 / 12)` to the balance and to the cumulative
interest counter. -/
def applyInterest (states : List DebtState) : List DebtState :=
  states.map fun d =>
    if threshold < d.balance then
      let monthly_interest :=
        d.balance * (d.interest_rate / PERCENT_TO_DECIMAL_DIVISOR / MONTHS_PER_YEAR)
      { d with balance := d.balance + monthly_interest,
               total_interest_paid := d.total_interest_paid + monthly_interest }
    else d

/-- Minimum-payment pass: walk the working set in order; every debt with
balance above the threshold pays `min(min_payment, balance)`, which is
deducted from the balance and from the remaining budget and pushed onto the
payments list; a debt whose balance drops below the threshold and has no
payoff month yet records the current month. -/
def payMinimums (month : ℕ) :
    List DebtState → ℚ → List DebtState × ℚ × List DebtPaymentDetail
  | [], remaining => ([], remaining, [])
  | d :: rest, remaining =>
    if threshold < d.balance then
      let payment := min d.min_payment d.balance
      let newBal := d.balance - payment
      let d' : DebtState :=
        { d with balance := newBal,
                 payoff_month :=
                   if newBal < threshold ∧ d.payoff_month = none then some month
                   else d.payoff_month }
      let r := payMinimums month rest (remaining - payment)
      (d' :: r.1, r.2.1, ⟨d.id, d.name, payment⟩ :: r.2.2)
    else
      let r := payMinimums month rest remaining
      (d :: r.1, r.2.1, r.2.2)

/-- Add `extra` to the first payment record with the given debt id
(`payments.iter_mut().find(|p| p.debt_id == target_debt.id)`). -/
def addToFirst (debt_id : Int) (extra : ℚ) :
    List DebtPaymentDetail → List DebtPaymentDetail
  | [] => []
  | p :: ps =>
    if p.debt_id = debt_id then { p with amount := p.amount + extra } :: ps
    else p :: addToFirst debt_id extra ps

/-- Merge the surplus into the target's existing payment record for the month
if one exists, otherwise push a new entry at the end. -/
def mergeOrPush (debt_id : Int) (debt_name : String) (extra : ℚ)
    (ps : List DebtPaymentDetail) : List DebtPaymentDetail :=
  if ps.any fun p => decide (p.debt_id = debt_id) then addToFirst debt_id extra ps
  else ps ++ [⟨debt_id, debt_name, extra⟩]

/-- Surplus pass: `iter_mut().find(|d| d.balance > 0.01)` — the first debt in
the current ordering with balance above the threshold receives
`min(remaining, balance)`; every other debt is untouched. -/
def allocateExtra (remaining : ℚ) (month : ℕ) :
    List DebtState → List DebtPaymentDetail → List DebtState × List DebtPaymentDetail
  | [], ps => ([], ps)
  | d :: rest, ps =>
    if threshold < d.balance then
      let extra := min remaining d.balance
      let newBal := d.balance - extra
      let d' : DebtState :=
        { d with balance := newBal,
                 payoff_month :=
                   if newBal < threshold ∧ d.payoff_month = none then some month
                   else d.payoff_month }
      (d' :: rest, mergeOrPush d.id d.name extra ps)
    else
      let r := allocateExtra remaining month rest ps
      (d :: r.1, r.2)

/-- One iteration of the `while` loop body (after the snowball re-sort, which
is done by the caller): accrue interest, pay minimums, allocate the surplus
when more than the threshold remains, and build the month's record. -/
def processMonth (monthly_amount : ℚ) (start_date : Int)
    (states : List DebtState) (month : ℕ) : List DebtState × MonthlyPayment :=
  let current_date := start_date + 30 * ((month : Int) - 1)
  let s1 := applyInterest states
  let pm := payMinimums month s1 monthly_amount
  let ae := if threshold < pm.2.1 then allocateExtra pm.2.1 month pm.1 pm.2.2
            else (pm.1, pm.2.2)
  let total_paid := (ae.2.map DebtPaymentDetail.amount).sum
  let remaining_balance := (ae.1.map DebtState.balance).sum
  (ae.1,
   { month := month, date := current_date, payments := ae.2,
     total_paid := total_paid, remaining_balance := remaining_balance })

/-! ## Strategy orderings (`sort_by` calls) -/

/-- The avalanche comparator `b.interest_rate.partial_cmp(&a.interest_rate)`
viewed as a "less or equal" relation: `a` may precede `b` when the comparator
does not place `a` strictly after `b`, i.e. when `b.rate ≤ a.rate`. -/
def rateGE (a b : DebtState) : Prop := b.interest_rate ≤ a.interest_rate

instance : DecidableRel rateGE := fun a b => by unfold rateGE; infer_instance

/-- The snowball comparator, as a "less or equal" relation: two paid-off
debts compare equal, a paid-off debt goes after any active one, and two
active debts compare ascending by balance. -/
def snowballLE (a b : DebtState) : Prop :=
  if a.balance < threshold ∧ b.balance < threshold then True
  else if a.balance < threshold then False
  else if b.balance < threshold then True
  else a.balance ≤ b.balance

instance : DecidableRel snowballLE := fun a b => by unfold snowballLE; infer_instance

/-- `debt_states.sort_by(|a, b| b.interest_rate.partial_cmp(&a.interest_rate))`:
stable sort, descending by interest rate. -/
def avalancheSort (states : List DebtState) : List DebtState :=
  List.insertionSort rateGE states

/-- The snowball per-month `sort_by`: stable sort, ascending by balance with
paid-off debts last. -/
def snowballSort (states : List DebtState) : List DebtState :=
  List.insertionSort snowballLE states

/-! ## The simulation loop -/

/-- The `while` guard: `debt_states.iter().any(|d| d.balance > 0.01)`. -/
def anyActive (states : List DebtState) : Bool :=
  states.any fun d => decide (threshold < d.balance)

/-- The working set a month's body operates on: the snowball calculator
re-sorts at the top of every month, the avalanche calculator does not. -/
def sortedFor (sortMonthly : Bool) (states : List DebtState) : List DebtState :=
  if sortMonthly then snowballSort states else states

/-- The `while` loop of both calculators.  `sortMonthly` is `true` for the
snowball calculator, which re-sorts the working set at the top of every
month.  After processing a month the loop increments `month` and returns
`PayoffExceeded` as soon as `month` passes `MAX_PAYOFF_MONTHS`, before
re-testing the `while` guard — exactly as in the source.  `fuel` is a
structural-termination device; the top-level entry passes
`fuel = MAX_PAYOFF_MONTHS`, which the bail-out test makes unreachable
(the `fuel = 0` branch repeats the bail-out error and is never taken from
the entry point). -/
def simLoop (sortMonthly : Bool) (monthly_amount : ℚ) (start_date : Int) :
    ℕ → ℕ → List DebtState → List MonthlyPayment →
    Except DebtError (List DebtState × List MonthlyPayment)
  | fuel, month, states, acc =>
    if anyActive states then
      match fuel with
      | 0 => .error (.PayoffExceeded MAX_PAYOFF_YEARS)
      | fuel' + 1 =>
        let p := processMonth monthly_amount start_date (sortedFor sortMonthly states) month
        if MAX_PAYOFF_MONTHS < month + 1 then .error (.PayoffExceeded MAX_PAYOFF_YEARS)
        else simLoop sortMonthly monthly_amount start_date fuel' (month + 1) p.1 (p.2 :: acc)
    else .ok (states, acc.reverse)

/-- Plan assembly after the loop completes: total interest is the sum of the
per-debt cumulative interest, the payoff date is the last record's date
(defaulted when there is no record), and each summary defaults an unset
payoff month to `0`. -/
def assemblePlan (strategy : String) (finalStates : List DebtState)
    (breakdown : List MonthlyPayment) : PayoffPlan :=
  { strategy := strategy,
    payoff_date := ((breakdown.getLast?).map MonthlyPayment.date).getD 0,
    total_interest := (finalStates.map DebtState.total_interest_paid).sum,
    monthly_breakdown := breakdown,
    debt_summaries := finalStates.map fun d =>
      { debt_id := d.id, debt_name := d.name,
        payoff_month := d.payoff_month.getD 0,
        total_interest_paid := d.total_interest_paid } }

/-- Wrap the loop's outcome: an error propagates unchanged (the Rust `?` /
early `return Err`), a successful run is assembled into the plan. -/
def finishPlan (strategy : String)
    (r : Except DebtError (List DebtState × List MonthlyPayment)) :
    Except DebtError PayoffPlan :=
  match r with
  | .error e => .error e
  | .ok r => .ok (assemblePlan strategy r.1 r.2)

/-! ## The two calculators and the command-layer dispatch -/

/-- `AvalancheCalculator::calculate_payoff_plan`: validate, build the working
set, sort it once descending by rate, then run the loop (`start_date` stands
for the `chrono::Local::now().date_naive()` read in the source). -/
def AvalancheCalculator.calculate_payoff_plan (debts : List Debt)
    (monthly_amount : ℚ) (start_date : Int) : Except DebtError PayoffPlan :=
  if debts.isEmpty then .error .NoDebts
  else
    let total_min_payments := (debts.map Debt.min_payment).sum
    if monthly_amount < total_min_payments then
      .error (.InsufficientFunds monthly_amount total_min_payments)
    else
      finishPlan "avalanche"
        (simLoop false monthly_amount start_date MAX_PAYOFF_MONTHS 1
          (avalancheSort (initStates debts)) [])

/-- `SnowballCalculator::calculate_payoff_plan`: validate, build the working
set (unsorted — the loop re-sorts it every month), then run the loop. -/
def SnowballCalculator.calculate_payoff_plan (debts : List Debt)
    (monthly_amount : ℚ) (start_date : Int) : Except DebtError PayoffPlan :=
  if debts.isEmpty then .error .NoDebts
  else
    let total_min_payments := (debts.map Debt.min_payment).sum
    if monthly_amount < total_min_payments then
      .error (.InsufficientFunds monthly_amount total_min_payments)
    else
      finishPlan "snowball"
        (simLoop true monthly_amount start_date MAX_PAYOFF_MONTHS 1
          (initStates debts) [])

/-- The strategy dispatch of `calculate_payoff_plan_impl` in
`commands/debt_commands.rs`, on an already-fetched debt list: the emptiness
check runs first, then the strategy string selects a calculator, any other
string yielding `InvalidStrategy`. -/
def calculate_payoff_plan_impl (debts : List Debt) (strategy : String)
    (monthly_amount : ℚ) (start_date : Int) : Except DebtError PayoffPlan :=
  if debts.isEmpty then .error .NoDebts
  else if strategy = "avalanche" then
    AvalancheCalculator.calculate_payoff_plan debts monthly_amount start_date
  else if strategy = "snowball" then
    SnowballCalculator.calculate_payoff_plan debts monthly_amount start_date
  else .error (.InvalidStrategy strategy)

/-! ## Month iteration, for stating when the simulation finishes -/

/-- The working-set transformation of one simulated month (including the
snowball re-sort when `sortMonthly` is set). -/
def stepMonth (sortMonthly : Bool) (monthly_amount : ℚ) (start_date : Int)
    (states : List DebtState) (month : ℕ) : List DebtState :=
  (processMonth monthly_amount start_date (sortedFor sortMonthly states) month).1

/-- Iterate `stepMonth` for `k` months starting at month number `month`. -/
def iterMonths (sortMonthly : Bool) (monthly_amount : ℚ) (start_date : Int) :
    List DebtState → ℕ → ℕ → List DebtState
  | states, _, 0 => states
  | states, month, k + 1 =>
    iterMonths sortMonthly monthly_amount start_date
      (stepMonth sortMonthly monthly_amount start_date states month) (month + 1) k

/-- The records generated by `k` consecutive months starting at `month`. -/
def monthRecords (sortMonthly : Bool) (monthly_amount : ℚ) (start_date : Int) :
    List DebtState → ℕ → ℕ → List MonthlyPayment
  | _, _, 0 => []
  | states, month, k + 1 =>
    (processMonth monthly_amount start_date (sortedFor sortMonthly states) month).2 ::
      monthRecords sortMonthly monthly_amount start_date
        (stepMonth sortMonthly monthly_amount start_date states month) (month + 1) k

/-! # Verification

Lemmas and claim theorems about the embedded engine. -/

/-- The loop produces either a successful result or the `PayoffExceeded`
error; no other error originates inside it. -/
theorem simLoop_ok_or_exceeded (sm : Bool) (b : ℚ) (sd : Int) :
    ∀ (fuel month : ℕ) (states : List DebtState) (acc : List MonthlyPayment),
      (∃ r, simLoop sm b sd fuel month states acc = .ok r) ∨
        simLoop sm b sd fuel month states acc = .error (.PayoffExceeded MAX_PAYOFF_YEARS) := by
  intro fuel
  induction fuel with
  | zero =>
    intro month states acc
    by_cases h : anyActive states = true
    · right; simp [simLoop, h]
    · left; exact ⟨(states, acc.reverse), by simp [simLoop, h]⟩
  | succ f ih =>
    intro month states acc
    by_cases h : anyActive states = true
    · by_cases h2 : MAX_PAYOFF_MONTHS < month + 1
      · right; simp [simLoop, h, h2]
      · have := ih (month + 1)
        simpa [simLoop, h, h2] using this _ _
    · left; exact ⟨(states, acc.reverse), by simp [simLoop, h]⟩

/-- Forward characterisation of a successful loop run: the loop processed
some number `k` of months, the `while` guard held before each of them and
fails after the last, the final states are the `k`-fold month iteration, and
the breakdown is the accumulator (reversed) followed by the `k` generated
records.  The month counter stays within the cap. -/
theorem simLoop_ok_elim (sm : Bool) (b : ℚ) (sd : Int) :
    ∀ (fuel month : ℕ) (states : List DebtState) (acc : List MonthlyPayment)
      (fs : List DebtState) (recs : List MonthlyPayment),
      month ≤ MAX_PAYOFF_MONTHS →
      simLoop sm b sd fuel month states acc = .ok (fs, recs) →
      ∃ k, k ≤ fuel ∧ month + k ≤ MAX_PAYOFF_MONTHS ∧
        anyActive (iterMonths sm b sd states month k) = false ∧
        fs = iterMonths sm b sd states month k ∧
        recs = acc.reverse ++ monthRecords sm b sd states month k := by
  intro fuel
  induction fuel with
  | zero =>
    intro month states acc fs recs hm hok
    by_cases h : anyActive states = true
    · simp [simLoop, h] at hok
    · refine ⟨0, by omega, by omega, ?_, ?_, ?_⟩
      · simpa [iterMonths] using h
      · simp [simLoop, h] at hok
        simp [iterMonths, hok.1]
      · simp [simLoop, h] at hok
        simp [monthRecords, hok.2]
  | succ f ih =>
    intro month states acc fs recs hm hok
    by_cases h : anyActive states = true
    · by_cases h2 : MAX_PAYOFF_MONTHS < month + 1
      · simp [simLoop, h, h2] at hok
      · rw [simLoop] at hok
        simp only [h, if_true, h2, if_false] at hok
        obtain ⟨k, hk, hcap, hdone, hfs, hrecs⟩ :=
          ih (month + 1) _ _ fs recs (by omega) hok
        refine ⟨k + 1, by omega, by omega, ?_, ?_, ?_⟩
        · simpa [iterMonths] using hdone
        · simpa [iterMonths] using hfs
        · simpa [monthRecords, List.reverse_cons, List.append_assoc] using hrecs
    · refine ⟨0, by omega, by omega, ?_, ?_, ?_⟩
      · simpa [iterMonths] using h
      · simp [simLoop, h] at hok
        simp [iterMonths, hok.1]
      · simp [simLoop, h] at hok
        simp [monthRecords, hok.2]

/-- Backward direction: if the guard holds for the first `k` months and fails
after them, and `k` fits under the fuel and the month cap, the loop returns
successfully with exactly that iteration's outcome. -/
theorem simLoop_ok_intro (sm : Bool) (b : ℚ) (sd : Int) :
    ∀ (fuel month : ℕ) (states : List DebtState) (acc : List MonthlyPayment) (k : ℕ),
      k ≤ fuel → month + k ≤ MAX_PAYOFF_MONTHS →
      (∀ j, j < k → anyActive (iterMonths sm b sd states month j) = true) →
      anyActive (iterMonths sm b sd states month k) = false →
      simLoop sm b sd fuel month states acc =
        .ok (iterMonths sm b sd states month k,
             acc.reverse ++ monthRecords sm b sd states month k) := by
  intro fuel
  induction fuel with
  | zero =>
    intro month states acc k hk hcap hact hdone
    interval_cases k
    simp only [iterMonths] at hdone
    simp [simLoop, hdone, iterMonths, monthRecords]
  | succ f ih =>
    intro month states acc k hk hcap hact hdone
    match k with
    | 0 =>
      simp only [iterMonths] at hdone
      simp [simLoop, hdone, iterMonths, monthRecords]
    | k + 1 =>
      have hact0 : anyActive states = true := by
        simpa [iterMonths] using hact 0 (by omega)
      rw [simLoop]
      simp only [hact0, if_true]
      have h2 : ¬ MAX_PAYOFF_MONTHS < month + 1 := by omega
      simp only [h2, if_false]
      have := ih (month + 1)
        (stepMonth sm b sd states month)
        ((processMonth b sd (sortedFor sm states) month).2 :: acc) k
        (by omega) (by omega)
        (fun j hj => by simpa [iterMonths] using hact (j + 1) (by omega))
        (by simpa [iterMonths] using hdone)
      simp only [stepMonth] at this
      rw [this]
      simp [iterMonths, monthRecords, List.reverse_cons, List.append_assoc, stepMonth]

/-! ## Immutable-field preservation

The month body mutates only `balance`, `total_interest_paid` and
`payoff_month`; a debt's identity, name, interest rate and minimum payment
travel through every pass unchanged and in place. -/

/-- The immutable part of a working-set entry. -/
def skel (d : DebtState) : Int × String × ℚ × ℚ :=
  (d.id, d.name, d.interest_rate, d.min_payment)

theorem applyInterest_map_skel (s : List DebtState) :
    (applyInterest s).map skel = s.map skel := by
  induction s with
  | nil => rfl
  | cons d t ih =>
    simp only [applyInterest, List.map_cons] at ih ⊢
    by_cases h : threshold < d.balance <;> simp [h, skel, ih]

theorem payMinimums_map_skel (m : ℕ) :
    ∀ (s : List DebtState) (r : ℚ), (payMinimums m s r).1.map skel = s.map skel := by
  intro s
  induction s with
  | nil => intro r; rfl
  | cons d t ih =>
    intro r
    by_cases h : threshold < d.balance <;> simp [payMinimums, h, skel, ih]

theorem allocateExtra_map_skel (rem : ℚ) (m : ℕ) :
    ∀ (s : List DebtState) (ps : List DebtPaymentDetail),
      (allocateExtra rem m s ps).1.map skel = s.map skel := by
  intro s
  induction s with
  | nil => intro ps; rfl
  | cons d t ih =>
    intro ps
    by_cases h : threshold < d.balance <;> simp [allocateExtra, h, skel, ih]

theorem processMonth_map_skel (b : ℚ) (sd : Int) (s : List DebtState) (m : ℕ) :
    (processMonth b sd s m).1.map skel = s.map skel := by
  unfold processMonth
  by_cases h : threshold < (payMinimums m (applyInterest s) b).2.1 <;>
    simp [h, allocateExtra_map_skel, payMinimums_map_skel, applyInterest_map_skel]

theorem snowballSort_perm (s : List DebtState) : List.Perm (snowballSort s) s :=
  List.perm_insertionSort _ s

theorem sortedFor_perm (sm : Bool) (s : List DebtState) : List.Perm (sortedFor sm s) s := by
  cases sm <;> simp [sortedFor, snowballSort_perm]

theorem stepMonth_map_skel_perm (sm : Bool) (b : ℚ) (sd : Int)
    (s : List DebtState) (m : ℕ) :
    List.Perm ((stepMonth sm b sd s m).map skel) (s.map skel) := by
  unfold stepMonth
  rw [processMonth_map_skel]
  exact (sortedFor_perm sm s).map skel

theorem iterMonths_map_skel_perm (sm : Bool) (b : ℚ) (sd : Int) :
    ∀ (k : ℕ) (s : List DebtState) (m : ℕ),
      List.Perm ((iterMonths sm b sd s m k).map skel) (s.map skel) := by
  intro k
  induction k with
  | zero => intro s m; simp [iterMonths]
  | succ k ih =>
    intro s m
    simpa [iterMonths] using (ih _ (m + 1)).trans (stepMonth_map_skel_perm sm b sd s m)

/-- With the snowball re-sort disabled, a month leaves the immutable part of
the working set pointwise unchanged — in particular the avalanche loop never
re-orders the working set after its initial sort. -/
theorem stepMonth_false_map_skel (b : ℚ) (sd : Int) (s : List DebtState) (m : ℕ) :
    (stepMonth false b sd s m).map skel = s.map skel := by
  unfold stepMonth
  rw [processMonth_map_skel]
  rfl

/-! ## Validation behaviour -/

/-- Once validation passes, the avalanche calculator yields either a plan or
the `PayoffExceeded` error. -/
theorem avalanche_ok_or_exceeded (debts : List Debt) (b : ℚ) (sd : Int)
    (hne : debts ≠ []) (hfunds : ¬ b < (debts.map Debt.min_payment).sum) :
    (∃ p, AvalancheCalculator.calculate_payoff_plan debts b sd = .ok p) ∨
      AvalancheCalculator.calculate_payoff_plan debts b sd =
        .error (.PayoffExceeded MAX_PAYOFF_YEARS) := by
  have hne' : debts.isEmpty = false := by simpa [List.isEmpty_iff] using hne
  unfold AvalancheCalculator.calculate_payoff_plan
  rw [hne']
  simp only [Bool.false_eq_true, if_false, hfunds]
  rcases simLoop_ok_or_exceeded false b sd MAX_PAYOFF_MONTHS 1
      (avalancheSort (initStates debts)) [] with ⟨r, hr⟩ | hr
  · left; exact ⟨_, by rw [hr]; rfl⟩
  · right; rw [hr]; rfl

/-- Once validation passes, the snowball calculator yields either a plan or
the `PayoffExceeded` error. -/
theorem snowball_ok_or_exceeded (debts : List Debt) (b : ℚ) (sd : Int)
    (hne : debts ≠ []) (hfunds : ¬ b < (debts.map Debt.min_payment).sum) :
    (∃ p, SnowballCalculator.calculate_payoff_plan debts b sd = .ok p) ∨
      SnowballCalculator.calculate_payoff_plan debts b sd =
        .error (.PayoffExceeded MAX_PAYOFF_YEARS) := by
  have hne' : debts.isEmpty = false := by simpa [List.isEmpty_iff] using hne
  unfold SnowballCalculator.calculate_payoff_plan
  rw [hne']
  simp only [Bool.false_eq_true, if_false, hfunds]
  rcases simLoop_ok_or_exceeded true b sd MAX_PAYOFF_MONTHS 1 (initStates debts) []
      with ⟨r, hr⟩ | hr
  · left; exact ⟨_, by rw [hr]; rfl⟩
  · right; rw [hr]; rfl

/-- C8: the monthly-interest primitive returns
`balance * (annualRatePercent / 100 / 12)` for a positive balance and
non-negative rate, and `0` for a non-positive balance or negative rate; as a
Lean function of its two arguments it is pure by construction. -/
theorem claim_C8_monthly_interest (balance annual_rate : ℚ) :
    (0 < balance → 0 ≤ annual_rate →
      calculate_monthly_interest balance annual_rate =
        balance * (annual_rate / 100 / 12)) ∧
    (balance ≤ 0 ∨ annual_rate < 0 →
      calculate_monthly_interest balance annual_rate = 0) := by
  constructor
  · intro hb hr
    rw [calculate_monthly_interest, if_neg]
    push_neg
    exact ⟨hb, hr⟩
  · intro h
    rw [calculate_monthly_interest, if_pos h]

/-- Witness for C8 at balance 1000, rate 18. -/
theorem claim_C8_monthly_interest_witness :
    (0:ℚ) < 1000 ∧ (0:ℚ) ≤ 18 ∧
      calculate_monthly_interest 1000 18 = 1000 * (18 / 100 / 12) :=
  ⟨by norm_num, by norm_num,
    (claim_C8_monthly_interest 1000 18).1 (by norm_num) (by norm_num)⟩

/-- C7: pre-simulation validation.  An empty debt list yields `NoDebts`;
with a non-empty list and a known strategy, a budget strictly below the
minimum-payment sum yields `InsufficientFunds` carrying both values, and a
budget at or above that sum can never produce `InsufficientFunds`; a
non-empty list with an unknown strategy yields `InvalidStrategy` carrying
the given string; and no plan is produced in any of these cases. -/
theorem claim_C7_validation (debts : List Debt) (strategy : String) (b : ℚ) (sd : Int) :
    (debts = [] → calculate_payoff_plan_impl debts strategy b sd = .error .NoDebts) ∧
    (debts ≠ [] → (strategy = "avalanche" ∨ strategy = "snowball") →
      b < (debts.map Debt.min_payment).sum →
      calculate_payoff_plan_impl debts strategy b sd =
        .error (.InsufficientFunds b (debts.map Debt.min_payment).sum)) ∧
    (¬ b < (debts.map Debt.min_payment).sum →
      ∀ m r, calculate_payoff_plan_impl debts strategy b sd ≠
        .error (.InsufficientFunds m r)) ∧
    (debts ≠ [] → strategy ≠ "avalanche" → strategy ≠ "snowball" →
      calculate_payoff_plan_impl debts strategy b sd = .error (.InvalidStrategy strategy)) ∧
    ((debts = [] ∨ b < (debts.map Debt.min_payment).sum ∨
        (strategy ≠ "avalanche" ∧ strategy ≠ "snowball")) →
      ∀ p, calculate_payoff_plan_impl debts strategy b sd ≠ .ok p) := by
  by_cases hemp : debts = []
  · subst hemp
    refine ⟨fun _ => by simp [calculate_payoff_plan_impl], ?_, ?_, ?_, ?_⟩
    · intro h; exact absurd rfl h
    · intro _ m r; simp [calculate_payoff_plan_impl]
    · intro h; exact absurd rfl h
    · intro _ p; simp [calculate_payoff_plan_impl]
  · have hne' : debts.isEmpty = false := by simpa [List.isEmpty_iff] using hemp
    have himpl : ∀ s : String, s = "avalanche" ∨ s = "snowball" ∨
        (s ≠ "avalanche" ∧ s ≠ "snowball") := by tauto
    refine ⟨fun h => absurd h hemp, ?_, ?_, ?_, ?_⟩
    · intro _ hstr hlt
      rcases hstr with h | h <;> subst h <;>
        simp [calculate_payoff_plan_impl, hne',
          AvalancheCalculator.calculate_payoff_plan,
          SnowballCalculator.calculate_payoff_plan, hlt]
    · intro hge m r
      rcases himpl strategy with h | h | h
      · subst h
        rcases avalanche_ok_or_exceeded debts b sd hemp hge with ⟨p, hp⟩ | hp <;>
          simp [calculate_payoff_plan_impl, hne', hp]
      · subst h
        rcases snowball_ok_or_exceeded debts b sd hemp hge with ⟨p, hp⟩ | hp <;>
          simp [calculate_payoff_plan_impl, hne', hp]
      · simp [calculate_payoff_plan_impl, hne', h.1, h.2]
    · intro _ h1 h2
      simp [calculate_payoff_plan_impl, hne', h1, h2]
    · intro hcase p
      rcases hcase with h | h | h
      · exact absurd h hemp
      · rcases himpl strategy with hs | hs | hs
        · subst hs
          simp [calculate_payoff_plan_impl, hne',
            AvalancheCalculator.calculate_payoff_plan, h]
        · subst hs
          simp [calculate_payoff_plan_impl, hne',
            SnowballCalculator.calculate_payoff_plan, h]
        · simp [calculate_payoff_plan_impl, hne', hs.1, hs.2]
      · simp [calculate_payoff_plan_impl, hne', h.1, h.2]

/-- Witness for C7: budget 25 against one debt with minimum payment 50
(with a known strategy) is rejected as `InsufficientFunds`. -/
theorem claim_C7_validation_witness :
    (([⟨1, "Card", 1000, 15, 50⟩] : List Debt) ≠ []) ∧
      (25 : ℚ) < (([⟨1, "Card", 1000, 15, 50⟩] : List Debt).map Debt.min_payment).sum ∧
      calculate_payoff_plan_impl [⟨1, "Card", 1000, 15, 50⟩] "avalanche" 25 0 =
        .error (.InsufficientFunds 25
          (([⟨1, "Card", 1000, 15, 50⟩] : List Debt).map Debt.min_payment).sum) :=
  ⟨by decide, by decide,
    (claim_C7_validation [⟨1, "Card", 1000, 15, 50⟩] "avalanche" 25 0).2.1
      (by decide) (Or.inl rfl) (by decide)⟩

/-- C10 counterexample: a negative budget does NOT pass validation even when
the minimum payments sum to 0 — the `budget < sum` check rejects it. -/
theorem claim_C10_counterexample :
    AvalancheCalculator.calculate_payoff_plan [⟨1, "Z", 100, 0, 0⟩] (-1) 0 =
      .error (.InsufficientFunds (-1) 0) := by decide

/-- C10 (amended): with a non-empty debt list whose minimum payments sum to
0, a zero budget passes validation (the calculators reach the simulation, so
the outcome is a plan or `PayoffExceeded`, never a precondition error),
while any negative budget is rejected by the single budget check
`budget < sum of minimum payments` as `InsufficientFunds`. -/
theorem claim_C10_no_positivity_check (debts : List Debt) (sd : Int)
    (hne : debts ≠ []) (hzero : (debts.map Debt.min_payment).sum = 0) :
    ((∃ p, AvalancheCalculator.calculate_payoff_plan debts 0 sd = .ok p) ∨
      AvalancheCalculator.calculate_payoff_plan debts 0 sd =
        .error (.PayoffExceeded MAX_PAYOFF_YEARS)) ∧
    ((∃ p, SnowballCalculator.calculate_payoff_plan debts 0 sd = .ok p) ∨
      SnowballCalculator.calculate_payoff_plan debts 0 sd =
        .error (.PayoffExceeded MAX_PAYOFF_YEARS)) ∧
    (∀ b : ℚ, b < 0 →
      AvalancheCalculator.calculate_payoff_plan debts b sd =
        .error (.InsufficientFunds b 0) ∧
      SnowballCalculator.calculate_payoff_plan debts b sd =
        .error (.InsufficientFunds b 0)) := by
  have hne' : debts.isEmpty = false := by simpa [List.isEmpty_iff] using hne
  refine ⟨?_, ?_, ?_⟩
  · exact avalanche_ok_or_exceeded debts 0 sd hne (by rw [hzero]; exact lt_irrefl 0)
  · exact snowball_ok_or_exceeded debts 0 sd hne (by rw [hzero]; exact lt_irrefl 0)
  · intro b hb
    have hlt : b < (debts.map Debt.min_payment).sum := by rw [hzero]; exact hb
    constructor
    · rw [AvalancheCalculator.calculate_payoff_plan, hne']
      simp only [Bool.false_eq_true, if_false, hzero]
      rw [if_pos hb]
    · rw [SnowballCalculator.calculate_payoff_plan, hne']
      simp only [Bool.false_eq_true, if_false, hzero]
      rw [if_pos hb]

/-- Witness for C10 at one debt with zero minimum payment. -/
theorem claim_C10_no_positivity_check_witness :
    (([⟨1, "Z", 100, 0, 0⟩] : List Debt) ≠ []) ∧
      (([⟨1, "Z", 100, 0, 0⟩] : List Debt).map Debt.min_payment).sum = 0 ∧
      (((∃ p, AvalancheCalculator.calculate_payoff_plan [⟨1, "Z", 100, 0, 0⟩] 0 0 = .ok p) ∨
        AvalancheCalculator.calculate_payoff_plan [⟨1, "Z", 100, 0, 0⟩] 0 0 =
          .error (.PayoffExceeded MAX_PAYOFF_YEARS)) ∧
      ((∃ p, SnowballCalculator.calculate_payoff_plan [⟨1, "Z", 100, 0, 0⟩] 0 0 = .ok p) ∨
        SnowballCalculator.calculate_payoff_plan [⟨1, "Z", 100, 0, 0⟩] 0 0 =
          .error (.PayoffExceeded MAX_PAYOFF_YEARS)) ∧
      (∀ b : ℚ, b < 0 →
        AvalancheCalculator.calculate_payoff_plan [⟨1, "Z", 100, 0, 0⟩] b 0 =
          .error (.InsufficientFunds b 0) ∧
        SnowballCalculator.calculate_payoff_plan [⟨1, "Z", 100, 0, 0⟩] b 0 =
          .error (.InsufficientFunds b 0))) :=
  ⟨by decide, by decide,
    claim_C10_no_positivity_check [⟨1, "Z", 100, 0, 0⟩] 0 (by decide) (by decide)⟩


/-! ## Strategy ordering facts (C6) -/

instance : IsTotal DebtState rateGE :=
  ⟨fun a b => le_total b.interest_rate a.interest_rate⟩

instance : IsTrans DebtState rateGE :=
  ⟨fun _ _ _ hab hbc => le_trans hbc hab⟩

instance : IsTotal DebtState snowballLE := by
  constructor
  intro a b
  unfold snowballLE
  by_cases ha : a.balance < threshold <;> by_cases hb : b.balance < threshold <;>
    simp [ha, hb]
  exact le_total _ _

instance : IsTrans DebtState snowballLE := by
  constructor
  intro a b c hab hbc
  unfold snowballLE at hab hbc ⊢
  by_cases ha : a.balance < threshold <;> by_cases hb : b.balance < threshold <;>
    by_cases hc : c.balance < threshold <;>
    simp [ha, hb, hc] at hab hbc ⊢ <;> linarith

/-- Inserting `a` does not disturb the elements whose rate differs from `a`'s:
they keep their relative order (and the filtered sequence). -/
theorem orderedInsert_rateGE_filter_ne (a : DebtState) (c : ℚ) (hc : a.interest_rate ≠ c) :
    ∀ l : List DebtState,
      (List.orderedInsert rateGE a l).filter (fun x => decide (x.interest_rate = c)) =
        l.filter (fun x => decide (x.interest_rate = c)) := by
  intro l
  induction l with
  | nil => simp [List.orderedInsert, hc]
  | cons b t ih =>
    by_cases h : rateGE a b
    · simp [List.orderedInsert, h, hc]
    · simp only [List.orderedInsert, if_neg h, List.filter_cons]
      rw [ih]

/-- Inserting `a` puts it in front of every element that shares its rate:
stable insertion keeps rate-ties in arrival order. -/
theorem orderedInsert_rateGE_filter_eq (a : DebtState) :
    ∀ l : List DebtState,
      (List.orderedInsert rateGE a l).filter
          (fun x => decide (x.interest_rate = a.interest_rate)) =
        a :: l.filter (fun x => decide (x.interest_rate = a.interest_rate)) := by
  intro l
  induction l with
  | nil => simp [List.orderedInsert]
  | cons b t ih =>
    by_cases h : rateGE a b
    · simp [List.orderedInsert, h]
    · have hne : b.interest_rate ≠ a.interest_rate := by
        unfold rateGE at h
        intro he
        exact h (le_of_eq he)
      simp only [List.orderedInsert, if_neg h, List.filter_cons, hne, decide_eq_true_eq,
        if_false]
      simp [hne, ih]

/-- The avalanche sort is stable: restricting the sorted working set to any
fixed interest rate yields exactly the input subsequence with that rate. -/
theorem avalancheSort_filter_stable (c : ℚ) :
    ∀ l : List DebtState,
      (avalancheSort l).filter (fun x => decide (x.interest_rate = c)) =
        l.filter (fun x => decide (x.interest_rate = c)) := by
  intro l
  induction l with
  | nil => rfl
  | cons a t ih =>
    show (List.orderedInsert rateGE a (List.insertionSort rateGE t)).filter _ = _
    by_cases hc : a.interest_rate = c
    · subst hc
      rw [orderedInsert_rateGE_filter_eq a (List.insertionSort rateGE t)]
      simp only [List.filter_cons, decide_eq_true_eq, if_pos rfl]
      exact congrArg _ ih
    · rw [orderedInsert_rateGE_filter_ne a c hc (List.insertionSort rateGE t)]
      simp only [List.filter_cons, hc, decide_eq_true_eq, if_false]
      exact ih

/-- The snowball comparator, unfolded: two below-threshold debts tie, a
below-threshold debt never precedes an at-or-above-threshold one, and two
at-or-above-threshold debts are ordered by balance. -/
theorem snowballLE_iff (a b : DebtState) :
    snowballLE a b ↔
      ((a.balance < threshold ∧ b.balance < threshold) ∨
        (¬ a.balance < threshold ∧ b.balance < threshold) ∨
        (¬ a.balance < threshold ∧ ¬ b.balance < threshold ∧ a.balance ≤ b.balance)) := by
  unfold snowballLE
  by_cases ha : a.balance < threshold <;> by_cases hb : b.balance < threshold <;>
    simp [ha, hb]

/-- C6: the avalanche calculator sorts the working set exactly once, before
the loop — its initial working set is the stable descending-by-rate sort of
the input states (sorted, a permutation, rate-ties kept in input order), and
a simulated month never re-orders the surviving identities; the snowball
calculator re-sorts at the top of every month — its month step is the shared
month body applied to the snowball-sorted working set, which is sorted
ascending by balance with below-threshold debts always last. -/
theorem claim_C6_strategy_orderings (l s : List DebtState) (c b : ℚ) (sd : Int) (m : ℕ) :
    List.Sorted rateGE (avalancheSort l) ∧
    List.Perm (avalancheSort l) l ∧
    ((avalancheSort l).filter (fun x => decide (x.interest_rate = c)) =
      l.filter (fun x => decide (x.interest_rate = c))) ∧
    ((stepMonth false b sd s m).map skel = s.map skel) ∧
    (stepMonth true b sd s m = (processMonth b sd (snowballSort s) m).1) ∧
    List.Sorted snowballLE (snowballSort l) ∧
    List.Perm (snowballSort l) l ∧
    (∀ x y : DebtState, snowballLE x y ↔
      ((x.balance < threshold ∧ y.balance < threshold) ∨
        (¬ x.balance < threshold ∧ y.balance < threshold) ∨
        (¬ x.balance < threshold ∧ ¬ y.balance < threshold ∧ x.balance ≤ y.balance))) :=
  ⟨List.sorted_insertionSort rateGE l,
   List.perm_insertionSort rateGE l,
   avalancheSort_filter_stable c l,
   stepMonth_false_map_skel b sd s m,
   rfl,
   List.sorted_insertionSort snowballLE l,
   List.perm_insertionSort snowballLE l,
   snowballLE_iff⟩


/-! ## Surplus allocation (C5) -/

/-- C5 counterexample: with the first-ordered debt's balance exactly at the
threshold (`0.01`), the surplus skips it (the code requires balance strictly
above the threshold, not "at or above") and goes to the next debt — here
debt 1 receives no payment entry at all in month 1, although under the claim
it would be the surplus target. -/
theorem claim_C5_counterexample :
    (AvalancheCalculator.calculate_payoff_plan
        [⟨1, "A", 1/100, 50, 0⟩, ⟨2, "B", 20, 0, 0⟩] 15 0).map
      (fun p => p.monthly_breakdown.head?.map MonthlyPayment.payments) =
    .ok (some [⟨2, "B", 15⟩]) := by decide

/-- C5 (amended): when the surplus pass runs, it pays only the first debt in
the current ordering whose balance is strictly above the threshold, in the
amount `min(remaining, balance)`, merging that amount into the debt's
existing payment record if present and appending a new entry otherwise; the
debts before the target (all at or below the threshold) and after it are
left untouched, even when the surplus exceeds what the target needs; if no
debt's balance is strictly above the threshold nothing changes. -/
theorem claim_C5_surplus_allocation (rem : ℚ) (m : ℕ) :
    (∀ (s : List DebtState) (ps : List DebtPaymentDetail),
      (∀ d ∈ s, ¬ threshold < d.balance) → allocateExtra rem m s ps = (s, ps)) ∧
    (∀ (pre : List DebtState) (d : DebtState) (post : List DebtState)
        (ps : List DebtPaymentDetail),
      (∀ e ∈ pre, ¬ threshold < e.balance) → threshold < d.balance →
      allocateExtra rem m (pre ++ d :: post) ps =
        (pre ++
          ({ d with
              balance := d.balance - min rem d.balance,
              payoff_month :=
                if d.balance - min rem d.balance < threshold ∧ d.payoff_month = none
                then some m else d.payoff_month } : DebtState) :: post,
         mergeOrPush d.id d.name (min rem d.balance) ps)) := by
  constructor
  · intro s
    induction s with
    | nil => intro ps _; rfl
    | cons d t ih =>
      intro ps h
      have hd : ¬ threshold < d.balance := h d (List.mem_cons_self d t)
      have ht := ih ps (fun e he => h e (List.mem_cons_of_mem d he))
      simp [allocateExtra, hd, ht]
  · intro pre
    induction pre with
    | nil =>
      intro d post ps _ hd
      simp [allocateExtra, hd]
    | cons e pre' ih =>
      intro d post ps hpre hd
      have he : ¬ threshold < e.balance := hpre e (List.mem_cons_self e pre')
      have := ih d post ps (fun x hx => hpre x (List.mem_cons_of_mem e hx)) hd
      simp [allocateExtra, he, this]

/-- Witness for C5: a below-threshold debt in front, an active debt behind,
surplus 15 against balance 20 — the active debt is paid 15 merged into its
existing record. -/
theorem claim_C5_surplus_allocation_witness :
    (∀ e ∈ ([⟨1, "A", 1/100, 50, 0, 0, none⟩] : List DebtState), ¬ threshold < e.balance) ∧
      threshold < (⟨2, "B", 20, 0, 0, 0, none⟩ : DebtState).balance ∧
      allocateExtra 15 1
          ([⟨1, "A", 1/100, 50, 0, 0, none⟩] ++ (⟨2, "B", 20, 0, 0, 0, none⟩ : DebtState) :: [])
          [⟨2, "B", 0⟩] =
        ([⟨1, "A", 1/100, 50, 0, 0, none⟩] ++
          ({ (⟨2, "B", 20, 0, 0, 0, none⟩ : DebtState) with
              balance := (20 : ℚ) - min 15 20,
              payoff_month :=
                if (20 : ℚ) - min 15 20 < threshold ∧
                    (⟨2, "B", 20, 0, 0, 0, none⟩ : DebtState).payoff_month = none
                then some 1 else (⟨2, "B", 20, 0, 0, 0, none⟩ : DebtState).payoff_month } :
            DebtState) :: [],
         mergeOrPush 2 "B" (min 15 20) [⟨2, "B", 0⟩]) :=
  ⟨by decide, by decide,
    (claim_C5_surplus_allocation 15 1).2
      [⟨1, "A", 1/100, 50, 0, 0, none⟩] ⟨2, "B", 20, 0, 0, 0, none⟩ [] [⟨2, "B", 0⟩]
      (by decide) (by decide)⟩


/-! ## Clock dependence (C3) -/

/-- Blank out the calendar date of a monthly record. -/
def eraseDate (r : MonthlyPayment) : MonthlyPayment :=
  { r with date := 0 }

/-- Blank out every calendar date of a plan (the per-month dates and the
payoff date), leaving all numeric content. -/
def erasePlanDates (p : PayoffPlan) : PayoffPlan :=
  { p with payoff_date := 0, monthly_breakdown := p.monthly_breakdown.map eraseDate }

/-- The working-set outcome of a month does not depend on the start date. -/
theorem processMonth_states_date_free (b : ℚ) (d1 d2 : Int) (s : List DebtState) (m : ℕ) :
    (processMonth b d1 s m).1 = (processMonth b d2 s m).1 := rfl

/-- Up to its date field, the record of a month does not depend on the start
date. -/
theorem processMonth_record_date_free (b : ℚ) (d1 d2 : Int) (s : List DebtState) (m : ℕ) :
    eraseDate (processMonth b d1 s m).2 = eraseDate (processMonth b d2 s m).2 := rfl

/-- The loop's outcome is independent of the start date once record dates are
erased. -/
theorem simLoop_erase_dates (sm : Bool) (b : ℚ) (d1 d2 : Int) :
    ∀ (fuel month : ℕ) (s : List DebtState) (acc1 acc2 : List MonthlyPayment),
      acc1.map eraseDate = acc2.map eraseDate →
      (simLoop sm b d1 fuel month s acc1).map (fun r => (r.1, r.2.map eraseDate)) =
        (simLoop sm b d2 fuel month s acc2).map (fun r => (r.1, r.2.map eraseDate)) := by
  intro fuel
  induction fuel with
  | zero =>
    intro month s acc1 acc2 hacc
    by_cases h : anyActive s = true
    · simp [simLoop, h]
    · simp only [simLoop, h, Bool.false_eq_true, if_false, Except.map]
      rw [List.map_reverse, List.map_reverse, hacc]
  | succ f ih =>
    intro month s acc1 acc2 hacc
    by_cases h : anyActive s = true
    · by_cases h2 : MAX_PAYOFF_MONTHS < month + 1
      · simp [simLoop, h, h2]
      · rw [simLoop, simLoop]
        simp only [h, if_true, h2, if_false]
        rw [show (processMonth b d2 (sortedFor sm s) month).1 =
              (processMonth b d1 (sortedFor sm s) month).1 from rfl]
        apply ih
        simp only [List.map_cons, hacc]
        rw [show eraseDate (processMonth b d1 (sortedFor sm s) month).2 =
              eraseDate (processMonth b d2 (sortedFor sm s) month).2 from rfl]
    · simp only [simLoop, h, Bool.false_eq_true, if_false, Except.map]
      rw [List.map_reverse, List.map_reverse, hacc]

/-- C3 counterexample: the engine reads the wall clock inside the calculator
(modelled by the `start_date` argument), so two calls with identical debts,
strategy and budget made under different clock readings return different
plans — the output is not a function of the debt/strategy/budget inputs
alone. -/
theorem claim_C3_counterexample :
    AvalancheCalculator.calculate_payoff_plan [⟨1, "D", 10, 0, 5⟩] 50 0 ≠
      AvalancheCalculator.calculate_payoff_plan [⟨1, "D", 10, 0, 5⟩] 50 30 := by decide

/-- C3 (amended): the calculators are deterministic functions of the debt
list, budget and the injected clock reading, and the clock reading
influences only the calendar dates: with all dates erased, the result (for
either strategy) is identical for any two start dates. -/
theorem claim_C3_determinism (debts : List Debt) (b : ℚ) (d1 d2 : Int) :
    (AvalancheCalculator.calculate_payoff_plan debts b d1).map erasePlanDates =
      (AvalancheCalculator.calculate_payoff_plan debts b d2).map erasePlanDates ∧
    (SnowballCalculator.calculate_payoff_plan debts b d1).map erasePlanDates =
      (SnowballCalculator.calculate_payoff_plan debts b d2).map erasePlanDates := by
  have key : ∀ (str : String) (x y : Except DebtError (List DebtState × List MonthlyPayment)),
      x.map (fun r => (r.1, r.2.map eraseDate)) = y.map (fun r => (r.1, r.2.map eraseDate)) →
      (finishPlan str x).map erasePlanDates = (finishPlan str y).map erasePlanDates := by
    intro str x y h
    cases x with
    | error e =>
      cases y with
      | error e2 => simp only [Except.map, Except.error.injEq] at h; rw [h]
      | ok r2 => simp [Except.map] at h
    | ok r =>
      cases y with
      | error e2 => simp [Except.map] at h
      | ok r2 =>
        simp only [Except.map, Except.ok.injEq, Prod.mk.injEq] at h
        obtain ⟨hfs, hrecs⟩ := h
        simp only [finishPlan, Except.map, Except.ok.injEq]
        unfold erasePlanDates assemblePlan
        simp only [PayoffPlan.mk.injEq, hfs, hrecs, and_true, true_and]
  constructor
  · unfold AvalancheCalculator.calculate_payoff_plan
    cases he : debts.isEmpty with
    | true => simp only [eq_self_iff_true, if_true]
    | false =>
      simp only [Bool.false_eq_true, if_false]
      by_cases hf : b < (debts.map Debt.min_payment).sum
      · rw [if_pos hf, if_pos hf]
      · rw [if_neg hf, if_neg hf]
        exact key "avalanche" _ _
          (simLoop_erase_dates false b d1 d2 MAX_PAYOFF_MONTHS 1
            (avalancheSort (initStates debts)) [] [] rfl)
  · unfold SnowballCalculator.calculate_payoff_plan
    cases he : debts.isEmpty with
    | true => simp only [eq_self_iff_true, if_true]
    | false =>
      simp only [Bool.false_eq_true, if_false]
      by_cases hf : b < (debts.map Debt.min_payment).sum
      · rw [if_pos hf, if_pos hf]
      · rw [if_neg hf, if_neg hf]
        exact key "snowball" _ _
          (simLoop_erase_dates true b d1 d2 MAX_PAYOFF_MONTHS 1 (initStates debts) [] [] rfl)


/-! ## Budget conservation (C2) -/

theorem payMinimums_remaining (m : ℕ) :
    ∀ (s : List DebtState) (r : ℚ),
      (payMinimums m s r).2.1 =
        r - ((payMinimums m s r).2.2.map DebtPaymentDetail.amount).sum := by
  intro s
  induction s with
  | nil => intro r; simp [payMinimums]
  | cons d t ih =>
    intro r
    by_cases h : threshold < d.balance
    · simp only [payMinimums, if_pos h, List.map_cons, List.sum_cons]
      rw [ih]
      ring
    · simp only [payMinimums, if_neg h]
      exact ih r

theorem payMinimums_paid_le (m : ℕ) :
    ∀ (s : List DebtState) (r : ℚ),
      (∀ d ∈ s, 0 ≤ d.min_payment) →
      ((payMinimums m s r).2.2.map DebtPaymentDetail.amount).sum ≤
        (s.map DebtState.min_payment).sum := by
  intro s
  induction s with
  | nil => intro r _; simp [payMinimums]
  | cons d t ih =>
    intro r h
    have hd : 0 ≤ d.min_payment := h d (List.mem_cons_self d t)
    have ht : ∀ e ∈ t, 0 ≤ e.min_payment := fun e he => h e (List.mem_cons_of_mem d he)
    by_cases hb : threshold < d.balance
    · simp only [payMinimums, if_pos hb, List.map_cons, List.sum_cons]
      exact add_le_add (min_le_left _ _) (ih _ ht)
    · simp only [payMinimums, if_neg hb, List.map_cons, List.sum_cons]
      calc ((payMinimums m t r).2.2.map DebtPaymentDetail.amount).sum
          ≤ (t.map DebtState.min_payment).sum := ih _ ht
        _ ≤ d.min_payment + (t.map DebtState.min_payment).sum := by linarith

theorem payMinimums_payments_nonneg (m : ℕ) :
    ∀ (s : List DebtState) (r : ℚ),
      (∀ d ∈ s, 0 ≤ d.min_payment) →
      ∀ p ∈ (payMinimums m s r).2.2, 0 ≤ p.amount := by
  intro s
  induction s with
  | nil => intro r _ p hp; simp [payMinimums] at hp
  | cons d t ih =>
    intro r h p hp
    have hd : 0 ≤ d.min_payment := h d (List.mem_cons_self d t)
    have ht : ∀ e ∈ t, 0 ≤ e.min_payment := fun e he => h e (List.mem_cons_of_mem d he)
    by_cases hb : threshold < d.balance
    · simp only [payMinimums, if_pos hb, List.mem_cons] at hp
      rcases hp with hp | hp
      · subst hp
        have : (0:ℚ) < d.balance := lt_trans (by norm_num [threshold]) hb
        simp only [le_min_iff]
        exact ⟨hd, le_of_lt this⟩
      · exact ih _ ht p hp
    · simp only [payMinimums, if_neg hb] at hp
      exact ih _ ht p hp

theorem addToFirst_sum (i : Int) (x : ℚ) :
    ∀ ps : List DebtPaymentDetail,
      (ps.any fun p => decide (p.debt_id = i)) = true →
      ((addToFirst i x ps).map DebtPaymentDetail.amount).sum =
        (ps.map DebtPaymentDetail.amount).sum + x := by
  intro ps
  induction ps with
  | nil => intro h; simp at h
  | cons p t ih =>
    intro h
    by_cases hp : p.debt_id = i
    · simp only [addToFirst, if_pos hp, List.map_cons, List.sum_cons]
      ring
    · have ht : (t.any fun p => decide (p.debt_id = i)) = true := by
        simpa [List.any_cons, hp] using h
      simp only [addToFirst, if_neg hp, List.map_cons, List.sum_cons, ih ht]
      ring

theorem mergeOrPush_sum (i : Int) (n : String) (x : ℚ) (ps : List DebtPaymentDetail) :
    ((mergeOrPush i n x ps).map DebtPaymentDetail.amount).sum =
      (ps.map DebtPaymentDetail.amount).sum + x := by
  unfold mergeOrPush
  by_cases h : (ps.any fun p => decide (p.debt_id = i)) = true
  · rw [if_pos h]
    exact addToFirst_sum i x ps h
  · rw [if_neg h]
    simp

/-- The surplus pass adds exactly `min(remaining, balance)` of the first
above-threshold debt to the payments total (or nothing when there is none). -/
theorem allocateExtra_payments_sum (rem : ℚ) (m : ℕ) :
    ∀ (s : List DebtState) (ps : List DebtPaymentDetail),
      ((allocateExtra rem m s ps).2.map DebtPaymentDetail.amount).sum =
        (ps.map DebtPaymentDetail.amount).sum +
          (match s.find? (fun d => decide (threshold < d.balance)) with
            | some d => min rem d.balance
            | none => 0) := by
  intro s
  induction s with
  | nil => intro ps; simp [allocateExtra]
  | cons d t ih =>
    intro ps
    by_cases h : threshold < d.balance
    · rw [List.find?_cons_of_pos _ (by simpa using h)]
      simp only [allocateExtra, if_pos h]
      exact mergeOrPush_sum d.id d.name (min rem d.balance) ps
    · rw [List.find?_cons_of_neg _ (by simpa using h)]
      simp only [allocateExtra, if_neg h]
      exact ih ps

/-- Minimum payments of the working set, unchanged by interest accrual. -/
theorem applyInterest_map_min_payment (s : List DebtState) :
    (applyInterest s).map DebtState.min_payment = s.map DebtState.min_payment := by
  induction s with
  | nil => rfl
  | cons d t ih =>
    simp only [applyInterest, List.map_cons] at ih ⊢
    by_cases h : threshold < d.balance <;> simp [h, ih]

/-- Minimum payments of the working set, unchanged by the minimum-payment
pass. -/
theorem payMinimums_map_min_payment (m : ℕ) :
    ∀ (s : List DebtState) (r : ℚ),
      (payMinimums m s r).1.map DebtState.min_payment = s.map DebtState.min_payment := by
  intro s
  induction s with
  | nil => intro r; rfl
  | cons d t ih =>
    intro r
    by_cases h : threshold < d.balance <;> simp [payMinimums, h, ih]

/-- A month's record always pays out at most the monthly budget, provided
every minimum payment is non-negative and their sum is at most the budget;
and it pays out exactly the budget when the leftover after minimums exceeds
the threshold and the surplus target's balance covers that leftover. -/
theorem processMonth_total_paid (b : ℚ) (sd : Int) (s : List DebtState) (m : ℕ)
    (hmp : ∀ d ∈ s, 0 ≤ d.min_payment)
    (hsum : (s.map DebtState.min_payment).sum ≤ b) :
    (processMonth b sd s m).2.total_paid ≤ b ∧
    (threshold < (payMinimums m (applyInterest s) b).2.1 →
      (∀ d, (payMinimums m (applyInterest s) b).1.find?
          (fun d => decide (threshold < d.balance)) = some d →
        (payMinimums m (applyInterest s) b).2.1 ≤ d.balance →
        (processMonth b sd s m).2.total_paid = b)) := by
  have hmp1 : ∀ d ∈ applyInterest s, 0 ≤ d.min_payment := by
    intro d hd
    rw [applyInterest] at hd
    obtain ⟨e, he, hde⟩ := List.mem_map.mp hd
    by_cases h : threshold < e.balance
    · rw [if_pos h] at hde
      subst hde
      exact hmp e he
    · rw [if_neg h] at hde
      subst hde
      exact hmp e he
  have hsum1 : ((applyInterest s).map DebtState.min_payment).sum ≤ b := by
    rw [applyInterest_map_min_payment]; exact hsum
  set pm := payMinimums m (applyInterest s) b with hpm
  have hpaid : (pm.2.2.map DebtPaymentDetail.amount).sum ≤ b :=
    le_trans (payMinimums_paid_le m (applyInterest s) b hmp1) hsum1
  have hrem : pm.2.1 = b - (pm.2.2.map DebtPaymentDetail.amount).sum :=
    payMinimums_remaining m (applyInterest s) b
  have hrem0 : 0 ≤ pm.2.1 := by rw [hrem]; linarith
  constructor
  · by_cases hx : threshold < pm.2.1
    · have : (processMonth b sd s m).2.total_paid =
          ((allocateExtra pm.2.1 m pm.1 pm.2.2).2.map DebtPaymentDetail.amount).sum := by
        simp only [processMonth, ← hpm, if_pos hx]
      rw [this, allocateExtra_payments_sum]
      cases hfind : pm.1.find? (fun d => decide (threshold < d.balance)) with
      | none => simpa using hpaid
      | some d =>
        have : min pm.2.1 d.balance ≤ pm.2.1 := min_le_left _ _
        rw [hrem] at this ⊢
        linarith
    · have : (processMonth b sd s m).2.total_paid =
          (pm.2.2.map DebtPaymentDetail.amount).sum := by
        simp only [processMonth, ← hpm, if_neg hx]
      rw [this]
      rw [hrem] at hx
      push_neg at hx
      linarith [hx, hrem0]
  · intro hx d hfind hcover
    have : (processMonth b sd s m).2.total_paid =
        ((allocateExtra pm.2.1 m pm.1 pm.2.2).2.map DebtPaymentDetail.amount).sum := by
      simp only [processMonth, ← hpm, if_pos hx]
    rw [this, allocateExtra_payments_sum, hfind]
    show (pm.2.2.map DebtPaymentDetail.amount).sum + min pm.2.1 d.balance = b
    rw [min_eq_left hcover, hrem]
    ring


theorem map_min_payment_perm_of_skel {xs ys : List DebtState}
    (h : List.Perm (xs.map skel) (ys.map skel)) :
    List.Perm (xs.map DebtState.min_payment) (ys.map DebtState.min_payment) := by
  have h2 := h.map (fun t : Int × String × ℚ × ℚ => t.2.2.2)
  rw [List.map_map, List.map_map] at h2
  exact h2

theorem monthRecords_total_le (sm : Bool) (b : ℚ) (sd : Int) :
    ∀ (k : ℕ) (s : List DebtState) (m : ℕ),
      (∀ d ∈ s, 0 ≤ d.min_payment) → (s.map DebtState.min_payment).sum ≤ b →
      ∀ r ∈ monthRecords sm b sd s m k, r.total_paid ≤ b := by
  intro k
  induction k with
  | zero => intro s m _ _ r hr; simp [monthRecords] at hr
  | succ k ih =>
    intro s m hmp hsum r hr
    simp only [monthRecords, List.mem_cons] at hr
    have hperm : List.Perm ((sortedFor sm s).map skel) (s.map skel) :=
      (sortedFor_perm sm s).map skel
    have hmp' : ∀ d ∈ sortedFor sm s, 0 ≤ d.min_payment := fun d hd =>
      hmp d ((sortedFor_perm sm s).mem_iff.mp hd)
    have hsum' : ((sortedFor sm s).map DebtState.min_payment).sum ≤ b := by
      rw [List.Perm.sum_eq (map_min_payment_perm_of_skel hperm)]
      exact hsum
    rcases hr with hr | hr
    · rw [hr]
      exact (processMonth_total_paid b sd (sortedFor sm s) m hmp' hsum').1
    · have hps : List.Perm ((stepMonth sm b sd s m).map skel) (s.map skel) :=
        stepMonth_map_skel_perm sm b sd s m
      have hmp2 : ∀ d ∈ stepMonth sm b sd s m, 0 ≤ d.min_payment := by
        intro d hd
        have h1 : d.min_payment ∈ (stepMonth sm b sd s m).map DebtState.min_payment :=
          List.mem_map_of_mem _ hd
        have h2 := (map_min_payment_perm_of_skel hps).mem_iff.mp h1
        obtain ⟨e, he, hee⟩ := List.mem_map.mp h2
        rw [← hee]
        exact hmp e he
      have hsum2 : ((stepMonth sm b sd s m).map DebtState.min_payment).sum ≤ b := by
        rw [List.Perm.sum_eq (map_min_payment_perm_of_skel hps)]
        exact hsum
      exact ih _ _ hmp2 hsum2 r hr

theorem initStates_map_min_payment (debts : List Debt) :
    (initStates debts).map DebtState.min_payment = debts.map Debt.min_payment := by
  rw [initStates, List.map_map]
  rfl

/-- C2 counterexample: budget `50 + 1/200` (i.e. 50.005) against one debt of
balance 100 with minimum payment 50 and rate 0.  In month 1 the leftover
after minimums is `1/200`, which does not exceed the `0.01` threshold, so no
surplus is allocated: the record's total paid is `50 ≠ 50 + 1/200`, although
month 1 is not the final month and the remaining balance before payments
(100) exceeds the budget.  The input is valid: the budget exceeds the
minimum-payment sum. -/
theorem claim_C2_counterexample :
    (AvalancheCalculator.calculate_payoff_plan [⟨1, "C", 100, 0, 50⟩] (50 + 1/200) 0).map
        (fun p => p.monthly_breakdown.map (fun r => (r.total_paid, r.remaining_balance))) =
      .ok [(50, 50), (50, 0)] ∧
    (50 : ℚ) ≠ 50 + 1/200 ∧ (50 + 1/200 : ℚ) < 100 ∧ ((50:ℚ) ≤ 50 + 1/200) := by
  refine ⟨by decide, by decide, by decide, by decide⟩

/-- C2 (amended): under valid inputs (non-negative minimum payments summing
to at most the budget), every monthly record's total paid is at most the
monthly budget; and a month pays out exactly the budget whenever the
leftover after minimum payments exceeds the `0.01` threshold and the first
surplus-eligible debt's balance covers that leftover.  (As the
counterexample shows, a sub-threshold leftover — or a surplus target too
small to absorb the surplus, since it is not cascaded — makes the total
fall short of the budget even in non-final months.) -/
theorem claim_C2_budget_conservation (debts : List Debt) (b : ℚ) (sd : Int)
    (plan : PayoffPlan) (hmp0 : ∀ d ∈ debts, 0 ≤ d.min_payment) :
    (AvalancheCalculator.calculate_payoff_plan debts b sd = .ok plan →
      ∀ r ∈ plan.monthly_breakdown, r.total_paid ≤ b) ∧
    (SnowballCalculator.calculate_payoff_plan debts b sd = .ok plan →
      ∀ r ∈ plan.monthly_breakdown, r.total_paid ≤ b) ∧
    (∀ (s : List DebtState) (m : ℕ),
      (∀ d ∈ s, 0 ≤ d.min_payment) → (s.map DebtState.min_payment).sum ≤ b →
      threshold < (payMinimums m (applyInterest s) b).2.1 →
      ∀ d, (payMinimums m (applyInterest s) b).1.find?
          (fun d => decide (threshold < d.balance)) = some d →
        (payMinimums m (applyInterest s) b).2.1 ≤ d.balance →
        (processMonth b sd s m).2.total_paid = b) := by
  have main : ∀ (sm : Bool) (init : List DebtState) (str : String),
      (∀ d ∈ init, 0 ≤ d.min_payment) → (init.map DebtState.min_payment).sum ≤ b →
      finishPlan str (simLoop sm b sd MAX_PAYOFF_MONTHS 1 init []) = .ok plan →
      ∀ r ∈ plan.monthly_breakdown, r.total_paid ≤ b := by
    intro sm init str hmp hsum hok r hr
    cases hsim : simLoop sm b sd MAX_PAYOFF_MONTHS 1 init [] with
    | error e => rw [hsim] at hok; exact absurd hok (by simp [finishPlan])
    | ok res =>
      rw [hsim] at hok
      simp only [finishPlan, Except.ok.injEq] at hok
      obtain ⟨k, _, _, _, hfs, hrecs⟩ :=
        simLoop_ok_elim sm b sd MAX_PAYOFF_MONTHS 1 init [] res.1 res.2
          (by norm_num [MAX_PAYOFF_MONTHS]) (by rw [hsim])
      rw [← hok] at hr
      simp only [assemblePlan] at hr
      rw [hrecs] at hr
      simp only [List.reverse_nil, List.nil_append] at hr
      exact monthRecords_total_le sm b sd k init 1 hmp hsum r hr
  by_cases hemp : debts.isEmpty = true
  · refine ⟨?_, ?_, ?_⟩
    · intro hok
      rw [AvalancheCalculator.calculate_payoff_plan, if_pos hemp] at hok
      exact absurd hok (by simp)
    · intro hok
      rw [SnowballCalculator.calculate_payoff_plan, if_pos hemp] at hok
      exact absurd hok (by simp)
    · intro s m hmp hsum hx d hfind hcover
      exact (processMonth_total_paid b sd s m hmp hsum).2 hx d hfind hcover
  · by_cases hf : b < (debts.map Debt.min_payment).sum
    · refine ⟨?_, ?_, ?_⟩
      · intro hok
        rw [AvalancheCalculator.calculate_payoff_plan, if_neg hemp] at hok
        simp only [if_pos hf] at hok
        exact absurd hok (by simp)
      · intro hok
        rw [SnowballCalculator.calculate_payoff_plan, if_neg hemp] at hok
        simp only [if_pos hf] at hok
        exact absurd hok (by simp)
      · intro s m hmp hsum hx d hfind hcover
        exact (processMonth_total_paid b sd s m hmp hsum).2 hx d hfind hcover
    · have hsum0 : (debts.map Debt.min_payment).sum ≤ b := le_of_not_lt hf
      refine ⟨?_, ?_, ?_⟩
      · intro hok
        rw [AvalancheCalculator.calculate_payoff_plan, if_neg hemp] at hok
        simp only [if_neg hf] at hok
        refine main false (avalancheSort (initStates debts)) "avalanche" ?_ ?_ hok
        · intro d hd
          have hd2 : d ∈ initStates debts :=
            (List.perm_insertionSort rateGE (initStates debts)).mem_iff.mp hd
          obtain ⟨e, he, hde⟩ := List.mem_map.mp hd2
          rw [← hde]
          exact hmp0 e he
        · have hperm : List.Perm ((avalancheSort (initStates debts)).map skel)
              ((initStates debts).map skel) :=
            (List.perm_insertionSort rateGE (initStates debts)).map skel
          rw [List.Perm.sum_eq (map_min_payment_perm_of_skel hperm),
            initStates_map_min_payment]
          exact hsum0
      · intro hok
        rw [SnowballCalculator.calculate_payoff_plan, if_neg hemp] at hok
        simp only [if_neg hf] at hok
        refine main true (initStates debts) "snowball" ?_ ?_ hok
        · intro d hd
          obtain ⟨e, he, hde⟩ := List.mem_map.mp hd
          rw [← hde]
          exact hmp0 e he
        · rw [initStates_map_min_payment]
          exact hsum0
      · intro s m hmp hsum hx d hfind hcover
        exact (processMonth_total_paid b sd s m hmp hsum).2 hx d hfind hcover

/-- Witness for C2 at a one-month plan: one debt of balance 10, rate 0,
minimum 5, budget 50. -/
theorem claim_C2_budget_conservation_witness :
    (∀ d ∈ ([⟨1, "D", 10, 0, 5⟩] : List Debt), 0 ≤ d.min_payment) ∧
      AvalancheCalculator.calculate_payoff_plan [⟨1, "D", 10, 0, 5⟩] 50 0 =
        .ok ⟨"avalanche", 0, 0, [⟨1, 0, [⟨1, "D", 10⟩], 10, 0⟩], [⟨1, "D", 1, 0⟩]⟩ ∧
      (∀ r ∈ (⟨"avalanche", 0, 0, [⟨1, 0, [⟨1, "D", 10⟩], 10, 0⟩],
          [⟨1, "D", 1, 0⟩]⟩ : PayoffPlan).monthly_breakdown, r.total_paid ≤ 50) :=
  ⟨by decide, by decide,
    (claim_C2_budget_conservation [⟨1, "D", 10, 0, 5⟩] 50 0
      ⟨"avalanche", 0, 0, [⟨1, 0, [⟨1, "D", 10⟩], 10, 0⟩], [⟨1, "D", 1, 0⟩]⟩
      (by decide)).1 (by decide)⟩


/-! ## Non-negativity (C9) -/

/-- All numeric fields a month's arithmetic depends on are non-negative. -/
def nonnegState (d : DebtState) : Prop :=
  0 ≤ d.balance ∧ 0 ≤ d.interest_rate ∧ 0 ≤ d.min_payment

theorem applyInterest_nonneg (s : List DebtState)
    (h : ∀ d ∈ s, nonnegState d) : ∀ d ∈ applyInterest s, nonnegState d := by
  intro d hd
  rw [applyInterest] at hd
  obtain ⟨e, he, hde⟩ := List.mem_map.mp hd
  obtain ⟨hb, hr, hm⟩ := h e he
  by_cases hact : threshold < e.balance
  · rw [if_pos hact] at hde
    subst hde
    refine ⟨?_, hr, hm⟩
    have : (0:ℚ) ≤ e.balance * (e.interest_rate / PERCENT_TO_DECIMAL_DIVISOR / MONTHS_PER_YEAR) := by
      apply mul_nonneg hb
      apply div_nonneg (div_nonneg hr _) _
      · norm_num [PERCENT_TO_DECIMAL_DIVISOR]
      · norm_num [MONTHS_PER_YEAR]
    simpa using add_nonneg hb this
  · rw [if_neg hact] at hde
    subst hde
    exact ⟨hb, hr, hm⟩

theorem payMinimums_nonneg (m : ℕ) :
    ∀ (s : List DebtState) (r : ℚ), (∀ d ∈ s, nonnegState d) →
      ∀ d ∈ (payMinimums m s r).1, nonnegState d := by
  intro s
  induction s with
  | nil => intro r _ d hd; simp [payMinimums] at hd
  | cons e t ih =>
    intro r h d hd
    obtain ⟨hb, hr, hm⟩ := h e (List.mem_cons_self e t)
    have ht : ∀ x ∈ t, nonnegState x := fun x hx => h x (List.mem_cons_of_mem e hx)
    by_cases hact : threshold < e.balance
    · simp only [payMinimums, if_pos hact, List.mem_cons] at hd
      rcases hd with hd | hd
      · subst hd
        refine ⟨?_, hr, hm⟩
        simp only [sub_nonneg]
        exact min_le_right _ _
      · exact ih _ ht d hd
    · simp only [payMinimums, if_neg hact, List.mem_cons] at hd
      rcases hd with hd | hd
      · subst hd; exact ⟨hb, hr, hm⟩
      · exact ih _ ht d hd

theorem addToFirst_amount_nonneg (i : Int) (x : ℚ) (hx : 0 ≤ x) :
    ∀ ps : List DebtPaymentDetail, (∀ p ∈ ps, 0 ≤ p.amount) →
      ∀ p ∈ addToFirst i x ps, 0 ≤ p.amount := by
  intro ps
  induction ps with
  | nil => intro _ p hp; simp [addToFirst] at hp
  | cons q t ih =>
    intro h p hp
    have hq : 0 ≤ q.amount := h q (List.mem_cons_self q t)
    have ht : ∀ p ∈ t, 0 ≤ p.amount := fun p hp => h p (List.mem_cons_of_mem q hp)
    by_cases hid : q.debt_id = i
    · simp only [addToFirst, if_pos hid, List.mem_cons] at hp
      rcases hp with hp | hp
      · subst hp; exact add_nonneg hq hx
      · exact ht p hp
    · simp only [addToFirst, if_neg hid, List.mem_cons] at hp
      rcases hp with hp | hp
      · subst hp; exact hq
      · exact ih ht p hp

theorem mergeOrPush_amount_nonneg (i : Int) (n : String) (x : ℚ) (hx : 0 ≤ x)
    (ps : List DebtPaymentDetail) (h : ∀ p ∈ ps, 0 ≤ p.amount) :
    ∀ p ∈ mergeOrPush i n x ps, 0 ≤ p.amount := by
  intro p hp
  rw [mergeOrPush] at hp
  by_cases hany : (ps.any fun p => decide (p.debt_id = i)) = true
  · rw [if_pos hany] at hp
    exact addToFirst_amount_nonneg i x hx ps h p hp
  · rw [if_neg hany] at hp
    rcases List.mem_append.mp hp with hp | hp
    · exact h p hp
    · simp only [List.mem_singleton] at hp
      subst hp
      exact hx

theorem allocateExtra_nonneg (rem : ℚ) (m : ℕ) (hrem : 0 ≤ rem) :
    ∀ (s : List DebtState) (ps : List DebtPaymentDetail),
      (∀ d ∈ s, nonnegState d) → (∀ p ∈ ps, 0 ≤ p.amount) →
      (∀ d ∈ (allocateExtra rem m s ps).1, nonnegState d) ∧
      (∀ p ∈ (allocateExtra rem m s ps).2, 0 ≤ p.amount) := by
  intro s
  induction s with
  | nil => intro ps _ hps; exact ⟨fun d hd => by simp [allocateExtra] at hd, hps⟩
  | cons e t ih =>
    intro ps h hps
    obtain ⟨hb, hr, hm⟩ := h e (List.mem_cons_self e t)
    have ht : ∀ x ∈ t, nonnegState x := fun x hx => h x (List.mem_cons_of_mem e hx)
    by_cases hact : threshold < e.balance
    · constructor
      · intro d hd
        simp only [allocateExtra, if_pos hact, List.mem_cons] at hd
        rcases hd with hd | hd
        · subst hd
          refine ⟨?_, hr, hm⟩
          simp only [sub_nonneg]
          exact min_le_right _ _
        · exact ht d hd
      · intro p hp
        simp only [allocateExtra, if_pos hact] at hp
        exact mergeOrPush_amount_nonneg e.id e.name (min rem e.balance)
          (le_min hrem hb) ps hps p hp
    · have := ih ps ht hps
      constructor
      · intro d hd
        simp only [allocateExtra, if_neg hact, List.mem_cons] at hd
        rcases hd with hd | hd
        · subst hd; exact ⟨hb, hr, hm⟩
        · exact this.1 d hd
      · intro p hp
        simp only [allocateExtra, if_neg hact] at hp
        exact this.2 p hp

theorem processMonth_nonneg (b : ℚ) (sd : Int) (s : List DebtState) (m : ℕ)
    (h : ∀ d ∈ s, nonnegState d) :
    (∀ d ∈ (processMonth b sd s m).1, nonnegState d) ∧
    (∀ p ∈ (processMonth b sd s m).2.payments, 0 ≤ p.amount) ∧
    0 ≤ (processMonth b sd s m).2.remaining_balance := by
  have h1 : ∀ d ∈ applyInterest s, nonnegState d := applyInterest_nonneg s h
  have h2 : ∀ d ∈ (payMinimums m (applyInterest s) b).1, nonnegState d :=
    payMinimums_nonneg m (applyInterest s) b h1
  have h3 : ∀ p ∈ (payMinimums m (applyInterest s) b).2.2, 0 ≤ p.amount :=
    payMinimums_payments_nonneg m (applyInterest s) b (fun d hd => (h1 d hd).2.2)
  set pm := payMinimums m (applyInterest s) b with hpm
  by_cases hx : threshold < pm.2.1
  · have hrem : (0:ℚ) ≤ pm.2.1 :=
      le_of_lt (lt_trans (by norm_num [threshold]) hx)
    have hae := allocateExtra_nonneg pm.2.1 m hrem pm.1 pm.2.2 h2 h3
    have hst : (processMonth b sd s m).1 = (allocateExtra pm.2.1 m pm.1 pm.2.2).1 := by
      simp only [processMonth, ← hpm, if_pos hx]
    have hpay : (processMonth b sd s m).2.payments =
        (allocateExtra pm.2.1 m pm.1 pm.2.2).2 := by
      simp only [processMonth, ← hpm, if_pos hx]
    have hbal : (processMonth b sd s m).2.remaining_balance =
        ((allocateExtra pm.2.1 m pm.1 pm.2.2).1.map DebtState.balance).sum := by
      simp only [processMonth, ← hpm, if_pos hx]
    refine ⟨by rw [hst]; exact hae.1, by rw [hpay]; exact hae.2, ?_⟩
    rw [hbal]
    apply List.sum_nonneg
    intro x hx2
    obtain ⟨d, hd, hdx⟩ := List.mem_map.mp hx2
    rw [← hdx]
    exact (hae.1 d hd).1
  · have hst : (processMonth b sd s m).1 = pm.1 := by
      simp only [processMonth, ← hpm, if_neg hx]
    have hpay : (processMonth b sd s m).2.payments = pm.2.2 := by
      simp only [processMonth, ← hpm, if_neg hx]
    have hbal : (processMonth b sd s m).2.remaining_balance =
        (pm.1.map DebtState.balance).sum := by
      simp only [processMonth, ← hpm, if_neg hx]
    refine ⟨by rw [hst]; exact h2, by rw [hpay]; exact h3, ?_⟩
    rw [hbal]
    apply List.sum_nonneg
    intro x hx2
    obtain ⟨d, hd, hdx⟩ := List.mem_map.mp hx2
    rw [← hdx]
    exact (h2 d hd).1

theorem stepMonth_nonneg (sm : Bool) (b : ℚ) (sd : Int) (s : List DebtState) (m : ℕ)
    (h : ∀ d ∈ s, nonnegState d) : ∀ d ∈ stepMonth sm b sd s m, nonnegState d := by
  have hsorted : ∀ d ∈ sortedFor sm s, nonnegState d := fun d hd =>
    h d ((sortedFor_perm sm s).mem_iff.mp hd)
  exact (processMonth_nonneg b sd (sortedFor sm s) m hsorted).1

theorem monthRecords_nonneg (sm : Bool) (b : ℚ) (sd : Int) :
    ∀ (k : ℕ) (s : List DebtState) (m : ℕ), (∀ d ∈ s, nonnegState d) →
      ∀ r ∈ monthRecords sm b sd s m k,
        (∀ p ∈ r.payments, 0 ≤ p.amount) ∧ 0 ≤ r.remaining_balance := by
  intro k
  induction k with
  | zero => intro s m _ r hr; simp [monthRecords] at hr
  | succ k ih =>
    intro s m h r hr
    simp only [monthRecords, List.mem_cons] at hr
    have hsorted : ∀ d ∈ sortedFor sm s, nonnegState d := fun d hd =>
      h d ((sortedFor_perm sm s).mem_iff.mp hd)
    rcases hr with hr | hr
    · rw [hr]
      exact ⟨(processMonth_nonneg b sd (sortedFor sm s) m hsorted).2.1,
        (processMonth_nonneg b sd (sortedFor sm s) m hsorted).2.2⟩
    · exact ih _ _ (stepMonth_nonneg sm b sd s m h) r hr


/-- C9 counterexample: with a negative interest rate (`-2400`%), the
interest step itself drives the balance negative (no payment is involved),
so balances do not stay non-negative under the claim's hypotheses, which
constrain only balances and minimum payments. -/
theorem claim_C9_counterexample :
    (AvalancheCalculator.calculate_payoff_plan [⟨1, "N", 100, -2400, 0⟩] 0 0).map
        (fun p => p.monthly_breakdown.map MonthlyPayment.remaining_balance) =
      .ok [-100] ∧ (-100 : ℚ) < 0 ∧
      (0:ℚ) ≤ 100 ∧ (0:ℚ) ≤ 0 := by
  refine ⟨by decide, by decide, by decide, by decide⟩

/-- C9 (amended): when additionally every interest rate is non-negative (the
spec's input domain), every payment amount in every record of a returned
plan is non-negative and every record's remaining balance (the sum of the
working set's balances) is non-negative; and each individual pass — interest
accrual, capped minimum payments, capped surplus allocation — preserves
non-negativity of all balances, since each payment is capped at the debt's
current balance via `min`. -/
theorem claim_C9_nonnegativity (debts : List Debt) (b : ℚ) (sd : Int)
    (plan : PayoffPlan)
    (h0 : ∀ d ∈ debts, 0 ≤ d.balance ∧ 0 ≤ d.interest_rate ∧ 0 ≤ d.min_payment) :
    (AvalancheCalculator.calculate_payoff_plan debts b sd = .ok plan →
      ∀ r ∈ plan.monthly_breakdown,
        (∀ p ∈ r.payments, 0 ≤ p.amount) ∧ 0 ≤ r.remaining_balance) ∧
    (SnowballCalculator.calculate_payoff_plan debts b sd = .ok plan →
      ∀ r ∈ plan.monthly_breakdown,
        (∀ p ∈ r.payments, 0 ≤ p.amount) ∧ 0 ≤ r.remaining_balance) ∧
    (∀ s : List DebtState, (∀ d ∈ s, nonnegState d) →
      ∀ d ∈ applyInterest s, nonnegState d) ∧
    (∀ (s : List DebtState) (r : ℚ) (m : ℕ), (∀ d ∈ s, nonnegState d) →
      (∀ d ∈ (payMinimums m s r).1, nonnegState d) ∧
      (∀ p ∈ (payMinimums m s r).2.2, 0 ≤ p.amount)) ∧
    (∀ (rem : ℚ) (m : ℕ) (s : List DebtState) (ps : List DebtPaymentDetail),
      0 ≤ rem → (∀ d ∈ s, nonnegState d) → (∀ p ∈ ps, 0 ≤ p.amount) →
      (∀ d ∈ (allocateExtra rem m s ps).1, nonnegState d) ∧
      (∀ p ∈ (allocateExtra rem m s ps).2, 0 ≤ p.amount)) := by
  have hinit : ∀ d ∈ initStates debts, nonnegState d := by
    intro d hd
    obtain ⟨e, he, hde⟩ := List.mem_map.mp hd
    rw [← hde]
    exact h0 e he
  have main : ∀ (sm : Bool) (init : List DebtState) (str : String),
      (∀ d ∈ init, nonnegState d) →
      finishPlan str (simLoop sm b sd MAX_PAYOFF_MONTHS 1 init []) = .ok plan →
      ∀ r ∈ plan.monthly_breakdown,
        (∀ p ∈ r.payments, 0 ≤ p.amount) ∧ 0 ≤ r.remaining_balance := by
    intro sm init str hNN hok r hr
    cases hsim : simLoop sm b sd MAX_PAYOFF_MONTHS 1 init [] with
    | error e => rw [hsim] at hok; exact absurd hok (by simp [finishPlan])
    | ok res =>
      rw [hsim] at hok
      simp only [finishPlan, Except.ok.injEq] at hok
      obtain ⟨k, _, _, _, hfs, hrecs⟩ :=
        simLoop_ok_elim sm b sd MAX_PAYOFF_MONTHS 1 init [] res.1 res.2
          (by norm_num [MAX_PAYOFF_MONTHS]) (by rw [hsim])
      rw [← hok] at hr
      simp only [assemblePlan] at hr
      rw [hrecs] at hr
      simp only [List.reverse_nil, List.nil_append] at hr
      exact monthRecords_nonneg sm b sd k init 1 hNN r hr
  refine ⟨?_, ?_, applyInterest_nonneg, ?_, ?_⟩
  · intro hok
    rw [AvalancheCalculator.calculate_payoff_plan] at hok
    by_cases hemp : debts.isEmpty = true
    · rw [if_pos hemp] at hok; exact absurd hok (by simp)
    · rw [if_neg hemp] at hok
      by_cases hf : b < (debts.map Debt.min_payment).sum
      · simp only [if_pos hf] at hok; exact absurd hok (by simp)
      · simp only [if_neg hf] at hok
        refine main false (avalancheSort (initStates debts)) "avalanche" ?_ hok
        intro d hd
        exact hinit d ((List.perm_insertionSort rateGE (initStates debts)).mem_iff.mp hd)
  · intro hok
    rw [SnowballCalculator.calculate_payoff_plan] at hok
    by_cases hemp : debts.isEmpty = true
    · rw [if_pos hemp] at hok; exact absurd hok (by simp)
    · rw [if_neg hemp] at hok
      by_cases hf : b < (debts.map Debt.min_payment).sum
      · simp only [if_pos hf] at hok; exact absurd hok (by simp)
      · simp only [if_neg hf] at hok
        exact main true (initStates debts) "snowball" hinit hok
  · intro s r m h
    exact ⟨payMinimums_nonneg m s r h,
      payMinimums_payments_nonneg m s r (fun d hd => (h d hd).2.2)⟩
  · intro rem m s ps hrem hNN hps
    exact allocateExtra_nonneg rem m hrem s ps hNN hps

/-- Witness for C9 at a one-month plan: one debt of balance 10, rate 0,
minimum 5, budget 40. -/
theorem claim_C9_nonnegativity_witness :
    (∀ d ∈ ([⟨1, "W", 10, 0, 5⟩] : List Debt),
        0 ≤ d.balance ∧ 0 ≤ d.interest_rate ∧ 0 ≤ d.min_payment) ∧
      AvalancheCalculator.calculate_payoff_plan [⟨1, "W", 10, 0, 5⟩] 40 0 =
        .ok ⟨"avalanche", 0, 0, [⟨1, 0, [⟨1, "W", 10⟩], 10, 0⟩], [⟨1, "W", 1, 0⟩]⟩ ∧
      (∀ r ∈ (⟨"avalanche", 0, 0, [⟨1, 0, [⟨1, "W", 10⟩], 10, 0⟩],
          [⟨1, "W", 1, 0⟩]⟩ : PayoffPlan).monthly_breakdown,
        (∀ p ∈ r.payments, 0 ≤ p.amount) ∧ 0 ≤ r.remaining_balance) :=
  ⟨by decide, by decide,
    (claim_C9_nonnegativity [⟨1, "W", 10, 0, 5⟩] 40 0
      ⟨"avalanche", 0, 0, [⟨1, 0, [⟨1, "W", 10⟩], 10, 0⟩], [⟨1, "W", 1, 0⟩]⟩
      (by decide)).1 (by decide)⟩


/-! ## Plan-level aggregates (C4) -/

/-- The maximum payoff month recorded across the summaries (0 when empty). -/
def maxPayoffMonth (l : List DebtSummary) : ℕ :=
  (l.map DebtSummary.payoff_month).foldr max 0

theorem foldr_max_le (c : ℕ) :
    ∀ xs : List ℕ, (∀ x ∈ xs, x ≤ c) → xs.foldr max 0 ≤ c := by
  intro xs
  induction xs with
  | nil => intro _; simp
  | cons x t ih =>
    intro h
    simp only [List.foldr_cons]
    exact max_le (h x (List.mem_cons_self x t))
      (ih fun y hy => h y (List.mem_cons_of_mem x hy))

/-- Payoff months recorded in the working set are all below the bound. -/
def payoffLT (s : List DebtState) (m : ℕ) : Prop :=
  ∀ d ∈ s, ∀ j, d.payoff_month = some j → j < m

theorem applyInterest_payoffLT {s : List DebtState} {m : ℕ} (h : payoffLT s m) :
    payoffLT (applyInterest s) m := by
  intro d hd j hj
  rw [applyInterest] at hd
  obtain ⟨e, he, hde⟩ := List.mem_map.mp hd
  by_cases hact : threshold < e.balance
  · rw [if_pos hact] at hde
    subst hde
    exact h e he j hj
  · rw [if_neg hact] at hde
    subst hde
    exact h e he j hj

theorem payMinimums_payoffLT (month : ℕ) :
    ∀ (s : List DebtState) (r : ℚ) (m : ℕ), payoffLT s m → month < m →
      payoffLT ((payMinimums month s r).1) m := by
  intro s
  induction s with
  | nil => intro r m _ _ d hd; simp [payMinimums] at hd
  | cons e t ih =>
    intro r m h hm d hd j hj
    have he := h e (List.mem_cons_self e t)
    have ht : payoffLT t m := fun x hx => h x (List.mem_cons_of_mem e hx)
    by_cases hact : threshold < e.balance
    · simp only [payMinimums, if_pos hact, List.mem_cons] at hd
      rcases hd with hd | hd
      · subst hd
        simp only at hj
        by_cases hcond : e.balance - min e.min_payment e.balance < threshold ∧
            e.payoff_month = none
        · rw [if_pos hcond] at hj
          cases hj
          exact hm
        · rw [if_neg hcond] at hj
          exact he j hj
      · exact ih _ _ ht hm d hd j hj
    · simp only [payMinimums, if_neg hact, List.mem_cons] at hd
      rcases hd with hd | hd
      · subst hd; exact he j hj
      · exact ih _ _ ht hm d hd j hj

theorem allocateExtra_payoffLT (rem : ℚ) (month : ℕ) :
    ∀ (s : List DebtState) (ps : List DebtPaymentDetail) (m : ℕ),
      payoffLT s m → month < m → payoffLT ((allocateExtra rem month s ps).1) m := by
  intro s
  induction s with
  | nil => intro ps m _ _ d hd; simp [allocateExtra] at hd
  | cons e t ih =>
    intro ps m h hm d hd j hj
    have he := h e (List.mem_cons_self e t)
    have ht : payoffLT t m := fun x hx => h x (List.mem_cons_of_mem e hx)
    by_cases hact : threshold < e.balance
    · simp only [allocateExtra, if_pos hact, List.mem_cons] at hd
      rcases hd with hd | hd
      · subst hd
        simp only at hj
        by_cases hcond : e.balance - min rem e.balance < threshold ∧
            e.payoff_month = none
        · rw [if_pos hcond] at hj
          cases hj
          exact hm
        · rw [if_neg hcond] at hj
          exact he j hj
      · exact ht d hd j hj
    · simp only [allocateExtra, if_neg hact, List.mem_cons] at hd
      rcases hd with hd | hd
      · subst hd; exact he j hj
      · exact ih _ _ ht hm d hd j hj

theorem processMonth_payoffLT (b : ℚ) (sd : Int) (s : List DebtState) (month : ℕ)
    (h : payoffLT s (month + 1)) :
    payoffLT ((processMonth b sd s month).1) (month + 1) := by
  have h1 : payoffLT (applyInterest s) (month + 1) := applyInterest_payoffLT h
  have h2 : payoffLT ((payMinimums month (applyInterest s) b).1) (month + 1) :=
    payMinimums_payoffLT month (applyInterest s) b (month + 1) h1
      (Nat.lt_succ_self month)
  set pm := payMinimums month (applyInterest s) b with hpm
  by_cases hx : threshold < pm.2.1
  · have : (processMonth b sd s month).1 = (allocateExtra pm.2.1 month pm.1 pm.2.2).1 := by
      simp only [processMonth, ← hpm, if_pos hx]
    rw [this]
    exact allocateExtra_payoffLT pm.2.1 month pm.1 pm.2.2 (month + 1) h2
      (Nat.lt_succ_self month)
  · have : (processMonth b sd s month).1 = pm.1 := by
      simp only [processMonth, ← hpm, if_neg hx]
    rw [this]
    exact h2

theorem payoffLT_mono {s : List DebtState} {m m2 : ℕ} (h : payoffLT s m) (hm : m ≤ m2) :
    payoffLT s m2 := fun d hd j hj => lt_of_lt_of_le (h d hd j hj) hm

theorem sortedFor_payoffLT (sm : Bool) {s : List DebtState} {m : ℕ} (h : payoffLT s m) :
    payoffLT (sortedFor sm s) m := fun d hd =>
  h d ((sortedFor_perm sm s).mem_iff.mp hd)

theorem iterMonths_payoffLT (sm : Bool) (b : ℚ) (sd : Int) :
    ∀ (k : ℕ) (s : List DebtState) (m : ℕ), payoffLT s m →
      payoffLT (iterMonths sm b sd s m k) (m + k) := by
  intro k
  induction k with
  | zero => intro s m h; simpa [iterMonths] using h
  | succ k ih =>
    intro s m h
    simp only [iterMonths]
    have hstep : payoffLT (stepMonth sm b sd s m) (m + 1) := by
      unfold stepMonth
      exact processMonth_payoffLT b sd (sortedFor sm s) m
        (sortedFor_payoffLT sm (payoffLT_mono h (Nat.le_succ m)))
    have := ih (stepMonth sm b sd s m) (m + 1) hstep
    have harith : m + 1 + k = m + (k + 1) := by omega
    rw [harith] at this
    exact this

theorem monthRecords_length (sm : Bool) (b : ℚ) (sd : Int) :
    ∀ (k : ℕ) (s : List DebtState) (m : ℕ),
      (monthRecords sm b sd s m k).length = k := by
  intro k
  induction k with
  | zero => intro s m; rfl
  | succ k ih => intro s m; simp [monthRecords, ih]

/-- C4 counterexample: one debt of balance `50 + 1/100`, rate 0, minimum
payment 50, budget 50.  The single simulated month leaves the balance at
exactly `0.01`, which is not strictly below the threshold, so no payoff
month is recorded (the summary defaults to 0), yet the loop exits because
the balance is no longer strictly above the threshold: the breakdown has 1
record while the maximum recorded payoff month is 0. -/
theorem claim_C4_counterexample :
    (AvalancheCalculator.calculate_payoff_plan [⟨1, "K", 50 + 1/100, 0, 50⟩] 50 0).map
        (fun p => (maxPayoffMonth p.debt_summaries, p.monthly_breakdown.length)) =
      .ok (0, 1) ∧ (0 : ℕ) ≠ 1 := by
  refine ⟨by decide, by decide⟩

/-- C4 (amended): for every successfully returned plan of either strategy,
the plan's total interest equals the sum of the per-debt summary interest
values exactly, and every recorded payoff month — hence their maximum — is
at most the number of monthly records.  (Equality of the maximum with the
record count can fail when a debt's balance comes to rest exactly on the
threshold, as the counterexample shows.) -/
theorem claim_C4_plan_aggregates (debts : List Debt) (b : ℚ) (sd : Int)
    (plan : PayoffPlan) :
    (AvalancheCalculator.calculate_payoff_plan debts b sd = .ok plan →
      plan.total_interest = (plan.debt_summaries.map DebtSummary.total_interest_paid).sum ∧
      maxPayoffMonth plan.debt_summaries ≤ plan.monthly_breakdown.length) ∧
    (SnowballCalculator.calculate_payoff_plan debts b sd = .ok plan →
      plan.total_interest = (plan.debt_summaries.map DebtSummary.total_interest_paid).sum ∧
      maxPayoffMonth plan.debt_summaries ≤ plan.monthly_breakdown.length) := by
  have main : ∀ (sm : Bool) (init : List DebtState) (str : String),
      payoffLT init 1 →
      finishPlan str (simLoop sm b sd MAX_PAYOFF_MONTHS 1 init []) = .ok plan →
      plan.total_interest = (plan.debt_summaries.map DebtSummary.total_interest_paid).sum ∧
      maxPayoffMonth plan.debt_summaries ≤ plan.monthly_breakdown.length := by
    intro sm init str hpay hok
    cases hsim : simLoop sm b sd MAX_PAYOFF_MONTHS 1 init [] with
    | error e => rw [hsim] at hok; exact absurd hok (by simp [finishPlan])
    | ok res =>
      rw [hsim] at hok
      simp only [finishPlan, Except.ok.injEq] at hok
      obtain ⟨k, _, _, _, hfs, hrecs⟩ :=
        simLoop_ok_elim sm b sd MAX_PAYOFF_MONTHS 1 init [] res.1 res.2
          (by norm_num [MAX_PAYOFF_MONTHS]) (by rw [hsim])
      rw [← hok]
      constructor
      · simp only [assemblePlan, List.map_map]
        rfl
      · simp only [assemblePlan]
        rw [hrecs]
        simp only [List.reverse_nil, List.nil_append, monthRecords_length]
        unfold maxPayoffMonth
        rw [List.map_map]
        apply foldr_max_le
        intro x hx
        obtain ⟨d, hd, hdx⟩ := List.mem_map.mp hx
        have hx2 : x = d.payoff_month.getD 0 := by rw [← hdx]; rfl
        have hiter := iterMonths_payoffLT sm b sd k init 1 hpay
        rw [← hfs] at hiter
        rw [hx2]
        cases hpo : d.payoff_month with
        | none => simp
        | some j =>
          have := hiter d hd j hpo
          simp only [Option.getD_some]
          omega
  have hinit : payoffLT (initStates debts) 1 := by
    intro d hd j hj
    obtain ⟨e, _, hde⟩ := List.mem_map.mp hd
    rw [← hde] at hj
    simp [initState] at hj
  constructor
  · intro hok
    rw [AvalancheCalculator.calculate_payoff_plan] at hok
    by_cases hemp : debts.isEmpty = true
    · rw [if_pos hemp] at hok; exact absurd hok (by simp)
    · rw [if_neg hemp] at hok
      by_cases hf : b < (debts.map Debt.min_payment).sum
      · simp only [if_pos hf] at hok; exact absurd hok (by simp)
      · simp only [if_neg hf] at hok
        refine main false (avalancheSort (initStates debts)) "avalanche" ?_ hok
        intro d hd
        exact hinit d ((List.perm_insertionSort rateGE (initStates debts)).mem_iff.mp hd)
  · intro hok
    rw [SnowballCalculator.calculate_payoff_plan] at hok
    by_cases hemp : debts.isEmpty = true
    · rw [if_pos hemp] at hok; exact absurd hok (by simp)
    · rw [if_neg hemp] at hok
      by_cases hf : b < (debts.map Debt.min_payment).sum
      · simp only [if_pos hf] at hok; exact absurd hok (by simp)
      · simp only [if_neg hf] at hok
        exact main true (initStates debts) "snowball" hinit hok

/-- Witness for C4 at a one-month plan: one debt of balance 10, rate 0,
minimum 5, budget 30. -/
theorem claim_C4_plan_aggregates_witness :
    AvalancheCalculator.calculate_payoff_plan [⟨1, "V", 10, 0, 5⟩] 30 0 =
      .ok ⟨"avalanche", 0, 0, [⟨1, 0, [⟨1, "V", 10⟩], 10, 0⟩], [⟨1, "V", 1, 0⟩]⟩ ∧
    ((⟨"avalanche", 0, 0, [⟨1, 0, [⟨1, "V", 10⟩], 10, 0⟩],
        [⟨1, "V", 1, 0⟩]⟩ : PayoffPlan).total_interest =
      ((⟨"avalanche", 0, 0, [⟨1, 0, [⟨1, "V", 10⟩], 10, 0⟩],
        [⟨1, "V", 1, 0⟩]⟩ : PayoffPlan).debt_summaries.map
          DebtSummary.total_interest_paid).sum ∧
    maxPayoffMonth (⟨"avalanche", 0, 0, [⟨1, 0, [⟨1, "V", 10⟩], 10, 0⟩],
        [⟨1, "V", 1, 0⟩]⟩ : PayoffPlan).debt_summaries ≤
      (⟨"avalanche", 0, 0, [⟨1, 0, [⟨1, "V", 10⟩], 10, 0⟩],
        [⟨1, "V", 1, 0⟩]⟩ : PayoffPlan).monthly_breakdown.length) :=
  ⟨by decide,
    (claim_C4_plan_aggregates [⟨1, "V", 10, 0, 5⟩] 30 0
      ⟨"avalanche", 0, 0, [⟨1, 0, [⟨1, "V", 10⟩], 10, 0⟩], [⟨1, "V", 1, 0⟩]⟩).1
      (by decide)⟩


/-! ## The safety bound (C1)

A family of explicit runs: a single debt `{id 1, name "E", balance n, rate
0, min payment 1}` against budget 1 loses exactly 1 of balance per month, so
it is extinguished in exactly `n` months. -/

theorem c1_applyInterest (x : ℚ) (hx : threshold < x) :
    applyInterest [⟨1, "E", x, 0, 1, 0, none⟩] = [⟨1, "E", x, 0, 1, 0, none⟩] := by
  simp [applyInterest, hx, PERCENT_TO_DECIMAL_DIVISOR, MONTHS_PER_YEAR]

theorem c1_step (x : ℚ) (h1 : 1 ≤ x) (m : ℕ) :
    stepMonth false 1 0 [⟨1, "E", x, 0, 1, 0, none⟩] m =
      [⟨1, "E", x - 1, 0, 1, 0, if x - 1 < threshold then some m else none⟩] := by
  have hx : threshold < x := by rw [threshold]; linarith
  have hmin : min (1:ℚ) x = 1 := min_eq_left h1
  have hrem : ¬ threshold < (1:ℚ) - min (1:ℚ) x := by
    rw [hmin, threshold]; norm_num
  show (processMonth 1 0 (sortedFor false [⟨1, "E", x, 0, 1, 0, none⟩]) m).1 = _
  rw [show sortedFor false [⟨1, "E", x, 0, 1, 0, none⟩] = [⟨1, "E", x, 0, 1, 0, none⟩] from rfl]
  unfold processMonth
  rw [c1_applyInterest x hx]
  simp only [payMinimums, if_pos hx, hmin, hrem, if_false, and_true]
  norm_num [threshold]

theorem c1_anyActive (x : ℚ) (po : Option ℕ) :
    anyActive [⟨1, "E", x, 0, 1, 0, po⟩] = decide (threshold < x) := by
  simp [anyActive]


theorem c1_loop :
    ∀ (fuel n month : ℕ) (acc : List MonthlyPayment), 1 ≤ n →
      MAX_PAYOFF_MONTHS + 1 ≤ month + n →
      simLoop false 1 0 fuel month [⟨1, "E", (n:ℚ), 0, 1, 0, none⟩] acc =
        .error (.PayoffExceeded MAX_PAYOFF_YEARS) := by
  intro fuel
  induction fuel with
  | zero =>
    intro n month acc hn hcap
    have hx : threshold < ((n:ℚ)) := by
      have : (1:ℚ) ≤ (n:ℚ) := by exact_mod_cast hn
      rw [threshold]; linarith
    have hact : anyActive [⟨1, "E", (n:ℚ), 0, 1, 0, none⟩] = true := by
      rw [c1_anyActive]; simpa using hx
    simp [simLoop, hact]
  | succ f ih =>
    intro n month acc hn hcap
    have hx : threshold < ((n:ℚ)) := by
      have : (1:ℚ) ≤ (n:ℚ) := by exact_mod_cast hn
      rw [threshold]; linarith
    have hact : anyActive [⟨1, "E", (n:ℚ), 0, 1, 0, none⟩] = true := by
      rw [c1_anyActive]; simpa using hx
    rw [simLoop]
    simp only [hact, if_true]
    by_cases h2 : MAX_PAYOFF_MONTHS < month + 1
    · simp [h2]
    · simp only [h2, if_false]
      have hM : MAX_PAYOFF_MONTHS = 1200 := rfl
    -- month ≤ 1199 together with month + n ≥ 1201 forces n ≥ 2
      have hn2 : 2 ≤ n := by omega
      have hstep := c1_step ((n:ℚ)) (by exact_mod_cast hn) month
      unfold stepMonth at hstep
      rw [hstep]
      have hpo : ¬ ((n:ℚ) - 1 < threshold) := by
        have : (2:ℚ) ≤ (n:ℚ) := by exact_mod_cast hn2
        rw [threshold]; push_neg; linarith
      rw [if_neg hpo]
      have hcast : (n:ℚ) - 1 = ((n - 1 : ℕ) : ℚ) := by
        have : (1:ℕ) ≤ n := hn
        push_cast [Nat.cast_sub this]
        ring
      rw [hcast]
      exact ih (n - 1) (month + 1) _ (by omega) (by omega)

theorem c1_iter_done :
    ∀ (n m : ℕ), 1 ≤ n →
      anyActive (iterMonths false 1 0 [⟨1, "E", (n:ℚ), 0, 1, 0, none⟩] m n) = false := by
  intro n
  induction n with
  | zero => intro m h; omega
  | succ k ih =>
    intro m _
    simp only [iterMonths]
    have hstep := c1_step (((k+1 : ℕ)):ℚ) (by exact_mod_cast Nat.one_le_iff_ne_zero.mpr (Nat.succ_ne_zero k)) m
    rw [hstep]
    by_cases hk : k = 0
    · subst hk
      have hbal : ((1 : ℕ):ℚ) - 1 = 0 := by norm_num
      rw [hbal]
      have hpo : ((0:ℚ) < threshold) := by rw [threshold]; norm_num
      rw [if_pos hpo]
      rw [show (iterMonths false 1 0 [⟨1, "E", 0, 0, 1, 0, some m⟩] (m+1) 0) =
        [⟨1, "E", 0, 0, 1, 0, some m⟩] from rfl]
      rw [c1_anyActive]
      simp [threshold]
    · have hk1 : 1 ≤ k := Nat.one_le_iff_ne_zero.mpr hk
      have hpo : ¬ (((k+1 : ℕ):ℚ) - 1 < threshold) := by
        have : (1:ℚ) ≤ (k:ℚ) := by exact_mod_cast hk1
        push_cast
        rw [threshold]
        push_neg
        linarith
      rw [if_neg hpo]
      have hcast : ((k+1 : ℕ):ℚ) - 1 = ((k : ℕ) : ℚ) := by push_cast; ring
      rw [hcast]
      exact ih (m + 1) hk1


theorem claim_C1_counterexample :
    anyActive (iterMonths false 1 0
        (avalancheSort (initStates [⟨1, "E", 1200, 0, 1⟩])) 1 MAX_PAYOFF_MONTHS) = false ∧
    AvalancheCalculator.calculate_payoff_plan [⟨1, "E", 1200, 0, 1⟩] 1 0 =
      .error (.PayoffExceeded MAX_PAYOFF_YEARS) := by
  have hsort : avalancheSort (initStates [⟨1, "E", 1200, 0, 1⟩]) =
      [⟨1, "E", 1200, 0, 1, 0, none⟩] := rfl
  have hcast : (1200 : ℚ) = ((1200 : ℕ) : ℚ) := by norm_num
  constructor
  · rw [hsort]
    rw [show (⟨1, "E", 1200, 0, 1, 0, none⟩ : DebtState) =
      ⟨1, "E", ((1200 : ℕ) : ℚ), 0, 1, 0, none⟩ by rw [← hcast]]
    exact c1_iter_done 1200 1 (by omega)
  · rw [AvalancheCalculator.calculate_payoff_plan]
    rw [if_neg (by simp : ¬ ([⟨1, "E", 1200, 0, 1⟩] : List Debt).isEmpty = true)]
    rw [if_neg (by norm_num : ¬ (1 : ℚ) < (([⟨1, "E", 1200, 0, 1⟩] : List Debt).map Debt.min_payment).sum)]
    rw [hsort]
    rw [show (⟨1, "E", 1200, 0, 1, 0, none⟩ : DebtState) =
      ⟨1, "E", ((1200 : ℕ) : ℚ), 0, 1, 0, none⟩ by rw [← hcast]]
    rw [c1_loop MAX_PAYOFF_MONTHS 1200 1 [] (by omega) (by norm_num [MAX_PAYOFF_MONTHS])]
    rfl

theorem finishPlan_ok_iff (str : String)
    (x : Except DebtError (List DebtState × List MonthlyPayment)) :
    (∃ p, finishPlan str x = .ok p) ↔ ∃ r, x = .ok r := by
  cases x with
  | error e => simp [finishPlan]
  | ok r => simp [finishPlan]

theorem simLoop_top_ok_iff (sm : Bool) (b : ℚ) (sd : Int) (init : List DebtState) :
    (∃ r, simLoop sm b sd MAX_PAYOFF_MONTHS 1 init [] = .ok r) ↔
      ∃ k, k ≤ MAX_PAYOFF_MONTHS - 1 ∧
        anyActive (iterMonths sm b sd init 1 k) = false := by
  have hM : MAX_PAYOFF_MONTHS = 1200 := rfl
  constructor
  · rintro ⟨r, hr⟩
    obtain ⟨k, hk, hcap, hdone, _, _⟩ :=
      simLoop_ok_elim sm b sd MAX_PAYOFF_MONTHS 1 init [] r.1 r.2
        (by omega) (by rw [hr])
    exact ⟨k, by omega, hdone⟩
  · rintro ⟨k, hk, hdone⟩
    have hex : ∃ j, anyActive (iterMonths sm b sd init 1 j) = false := ⟨k, hdone⟩
    have hdone0 := Nat.find_spec hex
    have hk0le : Nat.find hex ≤ k := Nat.find_min' hex hdone
    have hmin : ∀ j, j < Nat.find hex →
        anyActive (iterMonths sm b sd init 1 j) = true := by
      intro j hj
      have := Nat.find_min hex hj
      cases hval : anyActive (iterMonths sm b sd init 1 j) with
      | false => exact absurd hval this
      | true => rfl
    exact ⟨_, simLoop_ok_intro sm b sd MAX_PAYOFF_MONTHS 1 init [] (Nat.find hex)
      (by omega) (by omega) hmin hdone0⟩

theorem claim_C1_payoff_exceeded_boundary (debts : List Debt) (b : ℚ) (sd : Int)
    (hne : debts ≠ []) (hfunds : ¬ b < (debts.map Debt.min_payment).sum) :
    ((∃ p, AvalancheCalculator.calculate_payoff_plan debts b sd = .ok p) ↔
      ∃ k, k ≤ MAX_PAYOFF_MONTHS - 1 ∧
        anyActive (iterMonths false b sd (avalancheSort (initStates debts)) 1 k) = false) ∧
    ((∃ p, SnowballCalculator.calculate_payoff_plan debts b sd = .ok p) ↔
      ∃ k, k ≤ MAX_PAYOFF_MONTHS - 1 ∧
        anyActive (iterMonths true b sd (initStates debts) 1 k) = false) := by
  have hne' : debts.isEmpty = false := by simpa [List.isEmpty_iff] using hne
  constructor
  · rw [AvalancheCalculator.calculate_payoff_plan, hne']
    simp only [Bool.false_eq_true, if_false, hfunds]
    rw [(finishPlan_ok_iff "avalanche" _)]
    exact simLoop_top_ok_iff false b sd (avalancheSort (initStates debts))
  · rw [SnowballCalculator.calculate_payoff_plan, hne']
    simp only [Bool.false_eq_true, if_false, hfunds]
    rw [(finishPlan_ok_iff "snowball" _)]
    exact simLoop_top_ok_iff true b sd (initStates debts)


/-- Witness for C1 at one debt of balance 1, rate 0, minimum 1, budget 1. -/
theorem claim_C1_payoff_exceeded_boundary_witness :
    (([⟨1, "F", 1, 0, 1⟩] : List Debt) ≠ []) ∧
      (¬ (1:ℚ) < (([⟨1, "F", 1, 0, 1⟩] : List Debt).map Debt.min_payment).sum) ∧
      (((∃ p, AvalancheCalculator.calculate_payoff_plan [⟨1, "F", 1, 0, 1⟩] 1 0 = .ok p) ↔
        ∃ k, k ≤ MAX_PAYOFF_MONTHS - 1 ∧
          anyActive (iterMonths false 1 0
            (avalancheSort (initStates [⟨1, "F", 1, 0, 1⟩])) 1 k) = false) ∧
      ((∃ p, SnowballCalculator.calculate_payoff_plan [⟨1, "F", 1, 0, 1⟩] 1 0 = .ok p) ↔
        ∃ k, k ≤ MAX_PAYOFF_MONTHS - 1 ∧
          anyActive (iterMonths true 1 0 (initStates [⟨1, "F", 1, 0, 1⟩]) 1 k) = false)) :=
  ⟨by decide, by decide,
    claim_C1_payoff_exceeded_boundary [⟨1, "F", 1, 0, 1⟩] 1 0 (by decide) (by decide)⟩

end BudgetBalancer
